import Mathlib

/-!
# logopassapi: the HTTP handlers of `controllers/controllers.go`

A shallow embedding of the five handlers of `controllers.go`.  The packages the
handlers call (`auth`, `models`, `utils`, the clock, the mailer) are not part of
the source file; they appear here as fields of the records `Controllers` and
`Runtime`, so every statement below is about the handler code for arbitrary
collaborators.  The Go library functions the handlers call (`fmt.Sprintf`,
`json.Unmarshal`, `strings.ToLower`) are modelled concretely.  Go strings are modelled
as sequences of Unicode code points.
-/

namespace Logopassapi

/-! ## Go values -/

/-- Go `error`: `none` is `nil`, `some msg` is an error whose `Error()` text is `msg`. -/
abbrev GoError := Option String

/-- Two's-complement wrap-around of a mathematical integer into `int64`. -/
def wrapInt64 (x : Int) : Int := (x + 2 ^ 63) % 2 ^ 64 - 2 ^ 63

/-- Go `a - b` on `int64` operands. -/
def subInt64 (a b : Int) : Int := wrapInt64 (a - b)

/-- The range of Go `int64`. -/
def isInt64 (x : Int) : Prop := -(2 ^ 63) ≤ x ∧ x < 2 ^ 63

instance (x : Int) : Decidable (isInt64 x) := by unfold isInt64; infer_instance

/-! ## `fmt.Sprintf` with the verbs `%s` and `%d` -/

/-- The character of a decimal digit `d < 10`. -/
def digitChar (d : Nat) : Char := Char.ofNat (48 + d)

/-- Decimal digits of `n`, most significant first; `fuel` bounds the number of digits. -/
def formatNatFuel : Nat → Nat → List Char
  | 0, _ => []
  | fuel + 1, n =>
    if n < 10 then [digitChar n] else formatNatFuel fuel (n / 10) ++ [digitChar (n % 10)]

/-- Decimal text of a natural number (`strconv.FormatUint(n, 10)`). -/
def formatNat (n : Nat) : List Char := formatNatFuel (n + 1) n

/-- The verb `%d` applied to a signed integer: a minus sign for negatives, then the digits. -/
def formatInt (x : Int) : List Char :=
  if x < 0 then Char.ofNat 45 :: formatNat x.natAbs else formatNat x.natAbs

/-- Go `fmt.Sprintf` with the format of the reset payload: an opening brace, the key
`"email"` with `%s` between double quotes, a comma and a blank, the key `"ttl"` with `%d`,
and a closing brace.  `%s` copies the string without escaping. -/
def sprintfEmailTTL (email : String) (ttl : Int) : String :=
  "\x7b\"email\":\"" ++ email ++ "\", \"ttl\":" ++ String.mk (formatInt ttl) ++ "\x7d"

/-! ## `encoding/json`: `json.Unmarshal` into an `auth.Token` -/

/-- A parsed JSON value; a number keeps its literal text, as Go's decoder does. -/
inductive JValue where
  | null
  | bool (b : Bool)
  | number (lit : List Char)
  | string (s : List Char)
  | array (items : List JValue)
  | object (members : List (List Char × JValue))

/-- Why `json.Unmarshal` failed: a syntax error, a value of the wrong type for a field,
or nesting beyond the decoder's limit ("exceeded max depth").  `fuel` is the model's
recursion bound running out, which never happens (`Unmarshal_fuel`). -/
inductive JError where
  | syntaxError
  | typeError
  | depth
  | fuel
  deriving DecidableEq, Repr

/-- The decoder's limit on nested arrays and objects (`maxNestingDepth`). -/
def maxNestingDepth : Nat := 10000

/-- JSON white space: blank, tab, carriage return, line feed. -/
def isSpace (c : Char) : Bool :=
  c.toNat == 32 || c.toNat == 9 || c.toNat == 13 || c.toNat == 10

/-- Drop leading white space. -/
def skipSpace : List Char → List Char
  | [] => []
  | c :: cs => if isSpace c then skipSpace cs else c :: cs

/-- ASCII decimal digit. -/
def isDigit (c : Char) : Bool := 48 ≤ c.toNat && c.toNat ≤ 57

/-- Value of a hexadecimal digit. -/
def hexVal (c : Char) : Option Nat :=
  if 48 ≤ c.toNat ∧ c.toNat ≤ 57 then some (c.toNat - 48)
  else if 97 ≤ c.toNat ∧ c.toNat ≤ 102 then some (c.toNat - 87)
  else if 65 ≤ c.toNat ∧ c.toNat ≤ 70 then some (c.toNat - 55)
  else none

/-- Four hexadecimal digits after a `\u`. -/
def parseHex4 : List Char → Option (Nat × List Char)
  | a :: b :: c :: d :: rest =>
    match hexVal a, hexVal b, hexVal c, hexVal d with
    | some x, some y, some z, some w => some (((x * 16 + y) * 16 + z) * 16 + w, rest)
    | _, _, _, _ => none
  | _ => none

/-- The rune of the single-character escapes of a JSON string. -/
def simpleEscape (c : Char) : Option Char :=
  if c.toNat = 34 then some (Char.ofNat 34)
  else if c.toNat = 92 then some (Char.ofNat 92)
  else if c.toNat = 47 then some (Char.ofNat 47)
  else if c.toNat = 98 then some (Char.ofNat 8)
  else if c.toNat = 102 then some (Char.ofNat 12)
  else if c.toNat = 110 then some (Char.ofNat 10)
  else if c.toNat = 114 then some (Char.ofNat 13)
  else if c.toNat = 116 then some (Char.ofNat 9)
  else none

/-- The replacement character that Go substitutes for an unpaired surrogate. -/
def runeError : Char := Char.ofNat 65533

/-- The text after the opening quote of a JSON string: the unquoted contents and what
follows the closing quote.  Control characters are refused, escapes are decoded, a
surrogate pair of `\u` escapes is combined and a lone surrogate becomes U+FFFD. -/
def parseStringBody : Nat → List Char → Except JError (List Char × List Char)
  | _, [] => .error .syntaxError
  | 0, _ :: _ => .error .fuel
  | fuel + 1, c :: rest =>
    if c.toNat = 34 then .ok ([], rest)
    else if c.toNat < 32 then .error .syntaxError
    else if c.toNat = 92 then
      match rest with
      | [] => .error .syntaxError
      | e :: rest1 =>
        if e.toNat = 117 then
          match parseHex4 rest1 with
          | none => .error .syntaxError
          | some (v, rest2) =>
            if 55296 ≤ v ∧ v < 57344 then
              match rest2 with
              | b :: u :: rest3 =>
                if b.toNat = 92 ∧ u.toNat = 117 then
                  match parseHex4 rest3 with
                  | some (w, rest4) =>
                    if v < 56320 ∧ 56320 ≤ w ∧ w < 57344 then
                      match parseStringBody fuel rest4 with
                      | .ok (s, r) =>
                        .ok (Char.ofNat ((v - 55296) * 1024 + (w - 56320) + 65536) :: s, r)
                      | .error err => .error err
                    else
                      match parseStringBody fuel rest2 with
                      | .ok (s, r) => .ok (runeError :: s, r)
                      | .error err => .error err
                  | none => .error .syntaxError
                else
                  match parseStringBody fuel rest2 with
                  | .ok (s, r) => .ok (runeError :: s, r)
                  | .error err => .error err
              | _ =>
                match parseStringBody fuel rest2 with
                | .ok (s, r) => .ok (runeError :: s, r)
                | .error err => .error err
            else
              match parseStringBody fuel rest2 with
              | .ok (s, r) => .ok (Char.ofNat v :: s, r)
              | .error err => .error err
        else
          match simpleEscape e with
          | none => .error .syntaxError
          | some ch =>
            match parseStringBody fuel rest1 with
            | .ok (s, r) => .ok (ch :: s, r)
            | .error err => .error err
    else
      match parseStringBody fuel rest with
      | .ok (s, r) => .ok (c :: s, r)
      | .error err => .error err

/-- A run of one or more digits, and what follows it. -/
def parseDigits1 (cs : List Char) : Option (List Char × List Char) :=
  match cs.span isDigit with
  | ([], _) => none
  | (ds, rest) => some (ds, rest)

/-- The integer part of a JSON number: a single `0`, or a digit run not starting with `0`. -/
def parseIntPart : List Char → Option (List Char × List Char)
  | [] => none
  | c :: rest =>
    if c.toNat = 48 then some ([c], rest)
    else if isDigit c then some ((c :: rest).span isDigit)
    else none

/-- The optional fraction of a JSON number. -/
def parseFrac : List Char → Option (List Char × List Char)
  | [] => some ([], [])
  | c :: rest =>
    if c.toNat = 46 then
      match parseDigits1 rest with
      | some (ds, r) => some (c :: ds, r)
      | none => none
    else some ([], c :: rest)

/-- The optional exponent of a JSON number. -/
def parseExp : List Char → Option (List Char × List Char)
  | [] => some ([], [])
  | c :: rest =>
    if c.toNat = 101 ∨ c.toNat = 69 then
      match rest with
      | s :: rest1 =>
        if s.toNat = 43 ∨ s.toNat = 45 then
          match parseDigits1 rest1 with
          | some (ds, r) => some (c :: s :: ds, r)
          | none => none
        else
          match parseDigits1 (s :: rest1) with
          | some (ds, r) => some (c :: ds, r)
          | none => none
      | [] => none
    else some ([], c :: rest)

/-- A JSON number literal at the head of the input, and what follows it. -/
def parseNumber (cs : List Char) : Option (List Char × List Char) :=
  let (sign, cs1) :=
    match cs with
    | c :: rest => if c.toNat = 45 then ([c], rest) else ([], c :: rest)
    | [] => ([], [])
  match parseIntPart cs1 with
  | none => none
  | some (ip, cs2) =>
    match parseFrac cs2 with
    | none => none
    | some (fp, cs3) =>
      match parseExp cs3 with
      | none => none
      | some (ep, cs4) => some (sign ++ ip ++ fp ++ ep, cs4)

/-- Strip a fixed word (`true`, `false`, `null`) from the head of the input. -/
def stripWord : List Char → List Char → Option (List Char)
  | [], cs => some cs
  | _ :: _, [] => none
  | w :: ws, c :: cs => if w = c then stripWord ws cs else none

mutual
/-- One JSON value at the head of the input (no leading white space); `depth` counts the
arrays and objects that are open around it. -/
def parseValue : Nat → Nat → List Char → Except JError (JValue × List Char)
  | 0, _, _ => .error .fuel
  | _ + 1, _, [] => .error .syntaxError
  | fuel + 1, depth, c :: rest =>
    if c.toNat = 123 then
      if maxNestingDepth ≤ depth then .error .depth
      else
        match skipSpace rest with
        | [] => .error .syntaxError
        | d :: rest1 =>
          if d.toNat = 125 then .ok (.object [], rest1)
          else
            match parseMembers fuel (depth + 1) (d :: rest1) with
            | .ok (ms, r) => .ok (.object ms, r)
            | .error err => .error err
    else if c.toNat = 91 then
      if maxNestingDepth ≤ depth then .error .depth
      else
        match skipSpace rest with
        | [] => .error .syntaxError
        | d :: rest1 =>
          if d.toNat = 93 then .ok (.array [], rest1)
          else
            match parseElements fuel (depth + 1) (d :: rest1) with
            | .ok (xs, r) => .ok (.array xs, r)
            | .error err => .error err
    else if c.toNat = 34 then
      match parseStringBody rest.length rest with
      | .ok (s, r) => .ok (.string s, r)
      | .error err => .error err
    else if c.toNat = 116 then
      match stripWord [Char.ofNat 114, Char.ofNat 117, Char.ofNat 101] rest with
      | some r => .ok (.bool true, r)
      | none => .error .syntaxError
    else if c.toNat = 102 then
      match stripWord [Char.ofNat 97, Char.ofNat 108, Char.ofNat 115, Char.ofNat 101] rest with
      | some r => .ok (.bool false, r)
      | none => .error .syntaxError
    else if c.toNat = 110 then
      match stripWord [Char.ofNat 117, Char.ofNat 108, Char.ofNat 108] rest with
      | some r => .ok (.null, r)
      | none => .error .syntaxError
    else
      match parseNumber (c :: rest) with
      | some (lit, r) => .ok (.number lit, r)
      | none => .error .syntaxError
/-- The members of a non-empty object, from its first key (no leading white space) up to
and including the closing brace. -/
def parseMembers : Nat → Nat → List Char →
    Except JError (List (List Char × JValue) × List Char)
  | 0, _, _ => .error .fuel
  | _ + 1, _, [] => .error .syntaxError
  | fuel + 1, depth, q :: rest =>
    if q.toNat = 34 then
      match parseStringBody rest.length rest with
      | .error err => .error err
      | .ok (key, r1) =>
        match skipSpace r1 with
        | [] => .error .syntaxError
        | col :: r2 =>
          if col.toNat = 58 then
            match parseValue fuel depth (skipSpace r2) with
            | .error err => .error err
            | .ok (v, r3) =>
              match skipSpace r3 with
              | [] => .error .syntaxError
              | sep :: r4 =>
                if sep.toNat = 125 then .ok ([(key, v)], r4)
                else if sep.toNat = 44 then
                  match parseMembers fuel depth (skipSpace r4) with
                  | .ok (ms, r5) => .ok ((key, v) :: ms, r5)
                  | .error err => .error err
                else .error .syntaxError
          else .error .syntaxError
    else .error .syntaxError
/-- The elements of a non-empty array, from its first element (no leading white space)
up to and including the closing bracket. -/
def parseElements : Nat → Nat → List Char → Except JError (List JValue × List Char)
  | 0, _, _ => .error .fuel
  | fuel + 1, depth, cs =>
    match parseValue fuel depth cs with
    | .error err => .error err
    | .ok (v, r1) =>
      match skipSpace r1 with
      | [] => .error .syntaxError
      | sep :: r2 =>
        if sep.toNat = 93 then .ok ([v], r2)
        else if sep.toNat = 44 then
          match parseElements fuel depth (skipSpace r2) with
          | .ok (xs, r3) => .ok (v :: xs, r3)
          | .error err => .error err
        else .error .syntaxError
end

/-- A whole JSON document: one value between optional white space, nothing after it.
The recursion bound is twice the length of the text and two more, which is enough for
every text. -/
def parseDocument (cs : List Char) : Except JError JValue :=
  match parseValue (2 * cs.length + 2) 0 (skipSpace cs) with
  | .error err => .error err
  | .ok (v, rest) =>
    match skipSpace rest with
    | [] => .ok v
    | _ :: _ => .error .syntaxError

/-- Modelled from the spec: `auth.Token` is declared outside `controllers.go`; it is the
reset payload `{ email, expiresAt }`, with the JSON keys `email` and `ttl` that the
handlers write and read and the `int64` field that is compared with `time.Now().Unix()`. -/
structure Token where
  Email : String
  TTL : Int
  deriving DecidableEq, Repr

/-- ASCII lower-casing of one character, used to match object keys to field names. -/
def lowerAscii (c : Char) : Char :=
  if 65 ≤ c.toNat ∧ c.toNat ≤ 90 then Char.ofNat (c.toNat + 32) else c

/-- An object key selects the field `name` when it equals it up to ASCII case. -/
def keyIs (name : String) (key : List Char) : Bool := key.map lowerAscii == name.data

/-- Value of a digit run read in base ten. -/
def digitsValue (ds : List Char) : Nat := ds.foldl (fun a c => 10 * a + (c.toNat - 48)) 0

/-- Go `strconv.ParseInt(lit, 10, 64)` on a JSON number literal: the literal must be an
optional minus sign and digits only, and the value must fit `int64`. -/
def parseInt64 (lit : List Char) : Option Int :=
  let (neg, ds) :=
    match lit with
    | c :: rest => if c.toNat = 45 then (true, rest) else (false, c :: rest)
    | [] => (false, [])
  if ds ≠ [] ∧ ds.all isDigit then
    let x : Int := if neg then -(digitsValue ds : Int) else (digitsValue ds : Int)
    if isInt64 x then some x else none
  else none

/-- Keep the first error, as the decoder's `saveError` does. -/
def saveError (old : Option JError) (e : JError) : Option JError :=
  match old with
  | some o => some o
  | none => some e

/-- Store one object member into the token: `email` takes a string, `ttl` a number that
parses as `int64`, `null` leaves a field alone, another kind of value is a type error,
and a key that names no field is skipped. -/
def setField (st : Token × Option JError) (kv : List Char × JValue) : Token × Option JError :=
  if keyIs "email" kv.1 then
    match kv.2 with
    | .null => st
    | .string s => ({ st.1 with Email := String.mk s }, st.2)
    | _ => (st.1, saveError st.2 .typeError)
  else if keyIs "ttl" kv.1 then
    match kv.2 with
    | .null => st
    | .number lit =>
      match parseInt64 lit with
      | some x => ({ st.1 with TTL := x }, st.2)
      | none => (st.1, saveError st.2 .typeError)
    | _ => (st.1, saveError st.2 .typeError)
  else st

/-- Go `json.Unmarshal([]byte(text), &token)` on a zero `auth.Token`: the token after the
call and the error.  The text is validated as a whole first; an object fills the fields
member by member, `null` changes nothing, any other value is a type error. -/
def Unmarshal (text : String) : Token × Option JError :=
  match parseDocument text.data with
  | .error err => ({ Email := "", TTL := 0 }, some err)
  | .ok (.object members) => members.foldl setField ({ Email := "", TTL := 0 }, none)
  | .ok .null => ({ Email := "", TTL := 0 }, none)
  | .ok _ => ({ Email := "", TTL := 0 }, some .typeError)

/-! ## `strings.ToLower` -/

/-- One run of the lower-case table of package `unicode`: the code points `lo`,
`lo + stride`, ... up to `hi` map to `target`, `target + stride`, ... in this order. -/
structure CaseRange where
  lo : Nat
  hi : Nat
  stride : Nat
  target : Nat
  deriving DecidableEq, Repr

/-- The code point lies on the run. -/
def CaseRange.covers (e : CaseRange) (n : Nat) : Bool :=
  e.lo ≤ n && n ≤ e.hi && (n - e.lo) % e.stride == 0

/-- The runs above ASCII: the simple lower-case mappings of the Unicode Character
Database (version 14.0), from U+00C0 to U+1E921. -/
def upperRanges : List CaseRange :=
  [
    CaseRange.mk 192 214 1 224, CaseRange.mk 216 222 1 248, CaseRange.mk 256 302 2 257,
    CaseRange.mk 304 304 1 105, CaseRange.mk 306 310 2 307, CaseRange.mk 313 327 2 314,
    CaseRange.mk 330 374 2 331, CaseRange.mk 376 376 1 255, CaseRange.mk 377 381 2 378,
    CaseRange.mk 385 385 1 595, CaseRange.mk 386 388 2 387, CaseRange.mk 390 390 1 596,
    CaseRange.mk 391 391 1 392, CaseRange.mk 393 394 1 598, CaseRange.mk 395 395 1 396,
    CaseRange.mk 398 398 1 477, CaseRange.mk 399 399 1 601, CaseRange.mk 400 400 1 603,
    CaseRange.mk 401 401 1 402, CaseRange.mk 403 403 1 608, CaseRange.mk 404 404 1 611,
    CaseRange.mk 406 406 1 617, CaseRange.mk 407 407 1 616, CaseRange.mk 408 408 1 409,
    CaseRange.mk 412 412 1 623, CaseRange.mk 413 413 1 626, CaseRange.mk 415 415 1 629,
    CaseRange.mk 416 420 2 417, CaseRange.mk 422 422 1 640, CaseRange.mk 423 423 1 424,
    CaseRange.mk 425 425 1 643, CaseRange.mk 428 428 1 429, CaseRange.mk 430 430 1 648,
    CaseRange.mk 431 431 1 432, CaseRange.mk 433 434 1 650, CaseRange.mk 435 437 2 436,
    CaseRange.mk 439 439 1 658, CaseRange.mk 440 440 1 441, CaseRange.mk 444 444 1 445,
    CaseRange.mk 452 452 1 454, CaseRange.mk 453 453 1 454, CaseRange.mk 455 455 1 457,
    CaseRange.mk 456 456 1 457, CaseRange.mk 458 458 1 460, CaseRange.mk 459 475 2 460,
    CaseRange.mk 478 494 2 479, CaseRange.mk 497 497 1 499, CaseRange.mk 498 500 2 499,
    CaseRange.mk 502 502 1 405, CaseRange.mk 503 503 1 447, CaseRange.mk 504 542 2 505,
    CaseRange.mk 544 544 1 414, CaseRange.mk 546 562 2 547, CaseRange.mk 570 570 1 11365,
    CaseRange.mk 571 571 1 572, CaseRange.mk 573 573 1 410, CaseRange.mk 574 574 1 11366,
    CaseRange.mk 577 577 1 578, CaseRange.mk 579 579 1 384, CaseRange.mk 580 580 1 649,
    CaseRange.mk 581 581 1 652, CaseRange.mk 582 590 2 583, CaseRange.mk 880 882 2 881,
    CaseRange.mk 886 886 1 887, CaseRange.mk 895 895 1 1011, CaseRange.mk 902 902 1 940,
    CaseRange.mk 904 906 1 941, CaseRange.mk 908 908 1 972, CaseRange.mk 910 911 1 973,
    CaseRange.mk 913 929 1 945, CaseRange.mk 931 939 1 963, CaseRange.mk 975 975 1 983,
    CaseRange.mk 984 1006 2 985, CaseRange.mk 1012 1012 1 952, CaseRange.mk 1015 1015 1 1016,
    CaseRange.mk 1017 1017 1 1010, CaseRange.mk 1018 1018 1 1019, CaseRange.mk 1021 1023 1 891,
    CaseRange.mk 1024 1039 1 1104, CaseRange.mk 1040 1071 1 1072, CaseRange.mk 1120 1152 2 1121,
    CaseRange.mk 1162 1214 2 1163, CaseRange.mk 1216 1216 1 1231, CaseRange.mk 1217 1229 2 1218,
    CaseRange.mk 1232 1326 2 1233, CaseRange.mk 1329 1366 1 1377, CaseRange.mk 4256 4293 1 11520,
    CaseRange.mk 4295 4295 1 11559, CaseRange.mk 4301 4301 1 11565,
    CaseRange.mk 5024 5103 1 43888, CaseRange.mk 5104 5109 1 5112, CaseRange.mk 7312 7354 1 4304,
    CaseRange.mk 7357 7359 1 4349, CaseRange.mk 7680 7828 2 7681, CaseRange.mk 7838 7838 1 223,
    CaseRange.mk 7840 7934 2 7841, CaseRange.mk 7944 7951 1 7936, CaseRange.mk 7960 7965 1 7952,
    CaseRange.mk 7976 7983 1 7968, CaseRange.mk 7992 7999 1 7984, CaseRange.mk 8008 8013 1 8000,
    CaseRange.mk 8025 8031 2 8017, CaseRange.mk 8040 8047 1 8032, CaseRange.mk 8072 8079 1 8064,
    CaseRange.mk 8088 8095 1 8080, CaseRange.mk 8104 8111 1 8096, CaseRange.mk 8120 8121 1 8112,
    CaseRange.mk 8122 8123 1 8048, CaseRange.mk 8124 8124 1 8115, CaseRange.mk 8136 8139 1 8050,
    CaseRange.mk 8140 8140 1 8131, CaseRange.mk 8152 8153 1 8144, CaseRange.mk 8154 8155 1 8054,
    CaseRange.mk 8168 8169 1 8160, CaseRange.mk 8170 8171 1 8058, CaseRange.mk 8172 8172 1 8165,
    CaseRange.mk 8184 8185 1 8056, CaseRange.mk 8186 8187 1 8060, CaseRange.mk 8188 8188 1 8179,
    CaseRange.mk 8486 8486 1 969, CaseRange.mk 8490 8490 1 107, CaseRange.mk 8491 8491 1 229,
    CaseRange.mk 8498 8498 1 8526, CaseRange.mk 8544 8559 1 8560, CaseRange.mk 8579 8579 1 8580,
    CaseRange.mk 9398 9423 1 9424, CaseRange.mk 11264 11311 1 11312,
    CaseRange.mk 11360 11360 1 11361, CaseRange.mk 11362 11362 1 619,
    CaseRange.mk 11363 11363 1 7549, CaseRange.mk 11364 11364 1 637,
    CaseRange.mk 11367 11371 2 11368, CaseRange.mk 11373 11373 1 593,
    CaseRange.mk 11374 11374 1 625, CaseRange.mk 11375 11375 1 592,
    CaseRange.mk 11376 11376 1 594, CaseRange.mk 11378 11378 1 11379,
    CaseRange.mk 11381 11381 1 11382, CaseRange.mk 11390 11391 1 575,
    CaseRange.mk 11392 11490 2 11393, CaseRange.mk 11499 11501 2 11500,
    CaseRange.mk 11506 11506 1 11507, CaseRange.mk 42560 42604 2 42561,
    CaseRange.mk 42624 42650 2 42625, CaseRange.mk 42786 42798 2 42787,
    CaseRange.mk 42802 42862 2 42803, CaseRange.mk 42873 42875 2 42874,
    CaseRange.mk 42877 42877 1 7545, CaseRange.mk 42878 42886 2 42879,
    CaseRange.mk 42891 42891 1 42892, CaseRange.mk 42893 42893 1 613,
    CaseRange.mk 42896 42898 2 42897, CaseRange.mk 42902 42920 2 42903,
    CaseRange.mk 42922 42922 1 614, CaseRange.mk 42923 42923 1 604,
    CaseRange.mk 42924 42924 1 609, CaseRange.mk 42925 42925 1 620,
    CaseRange.mk 42926 42926 1 618, CaseRange.mk 42928 42928 1 670,
    CaseRange.mk 42929 42929 1 647, CaseRange.mk 42930 42930 1 669,
    CaseRange.mk 42931 42931 1 43859, CaseRange.mk 42932 42946 2 42933,
    CaseRange.mk 42948 42948 1 42900, CaseRange.mk 42949 42949 1 642,
    CaseRange.mk 42950 42950 1 7566, CaseRange.mk 42951 42953 2 42952,
    CaseRange.mk 42960 42960 1 42961, CaseRange.mk 42966 42968 2 42967,
    CaseRange.mk 42997 42997 1 42998, CaseRange.mk 65313 65338 1 65345,
    CaseRange.mk 66560 66599 1 66600, CaseRange.mk 66736 66771 1 66776,
    CaseRange.mk 66928 66938 1 66967, CaseRange.mk 66940 66954 1 66979,
    CaseRange.mk 66956 66962 1 66995, CaseRange.mk 66964 66965 1 67003,
    CaseRange.mk 68736 68786 1 68800, CaseRange.mk 71840 71871 1 71872,
    CaseRange.mk 93760 93791 1 93792, CaseRange.mk 125184 125217 1 125218
  ]

/-- The lower-case table: `A`..`Z` and the runs above ASCII. -/
def lowerCaseRanges : List CaseRange := CaseRange.mk 65 90 1 97 :: upperRanges

/-- Look a code point up in a table; a code point on no run is left as it is. -/
def lowerIn : List CaseRange → Nat → Nat
  | [], n => n
  | e :: es, n => if e.covers n then e.target + (n - e.lo) else lowerIn es n

/-- Lower-case mapping of a code point. -/
def lowerCode (n : Nat) : Nat := lowerIn lowerCaseRanges n

/-- Go `unicode.ToLower`. -/
def unicodeToLower (c : Char) : Char := Char.ofNat (lowerCode c.toNat)

/-- Go `strings.ToLower`: every rune replaced by `unicode.ToLower` of it. -/
def ToLower (s : String) : String := String.mk (s.data.map unicodeToLower)

/-- Sufficient test that no image of the run `e` lies on the run `d`: the images are all
below `d`, or all above it, or the two are of opposite parity. -/
def imageAvoids (e d : CaseRange) : Bool :=
  e.target + (e.hi - e.lo) < d.lo || d.hi < e.target ||
    ((e.stride == 2 || e.lo == e.hi) && d.stride == 2 && (e.target + d.lo) % 2 == 1)

/-- No image of a run of the table lies on a run of the table. -/
def tableClosed (t : List CaseRange) : Bool :=
  t.all (fun e => t.all (fun d => imageAvoids e d))

/-! ## The collaborators of the handlers -/

/-- Modelled from the spec: `models.UserData` is declared outside `controllers.go`; it is
the stored credential `{ userID, email, passwordDigest }`, with the field names the
handlers use. -/
structure UserData where
  UserID : Int
  Email : String
  PswdHashB : List Nat
  deriving DecidableEq, Repr

/-- The request body of the login action (`auth.LogoPassData`), with the fields the
handler reads. -/
structure LogoPassData where
  Login : String
  Password : String
  deriving DecidableEq, Repr

/-- Modelled from the spec: the storage contract `models.Datastore`, implemented outside
`controllers.go`: `saveUser -> (userID, conflictCode, err)`,
`getUserByEmail -> (user, found, err)`, `getUserByAuth -> (user, found, err)`.  A call
is a function of its arguments and leaves the record it is given as it was. -/
structure Datastore where
  GetUserByEmail : String → UserData × Bool × GoError
  GetUserByAuth : String → List Nat → UserData × Bool × GoError
  SaveUser : UserData → Int × String × GoError

/-- The configuration and methods of `auth.CryptoData` that the handlers use; their bodies
are outside `controllers.go`. -/
structure CryptoData where
  PasswordEmailTTL : Int
  RestorePasswordURL : String
  DecryptTextAES256 : String → String × GoError
  EncryptTextAES256Base64 : String → String × GoError
  GetTokenJSON : Int → String
  GetSHA256Bytes : String → List Nat
  CheckAuthToken : String → Bool × GoError

/-- The mailer `utils.SMTPData`. -/
structure SMTPData where
  SendEmail : String → String → GoError

/-- The receiver of the handlers (`type Controllers struct`). -/
structure Controllers where
  Db : Datastore
  Crypto : CryptoData
  SMTP : SMTPData

/-- What a handler gets from package-level functions during one request: the clock
(`time.Now().Unix()`), the outcome of `auth.GetNewPassword()`, `utils.CheckEmailFormat`,
and `utils.ConvertBody2JSON` at the three types it is used with. -/
structure Runtime where
  Now : Int
  GetNewPassword : String × GoError
  CheckEmailFormat : String → Bool
  ConvertBody2UserData : String → UserData × GoError
  ConvertBody2Token : String → Token × GoError
  ConvertBody2LogoPassData : String → LogoPassData × GoError

/-- The parts of an `*http.Request` that the handlers read: the method, the body, the
route variable `token` (`mux.Vars(r)["token"]`) and the `Authorization` header. -/
structure Request where
  Method : String
  Body : String
  TokenVar : String
  Authorization : String

/-- Modelled from the spec: `utils.GetJSONAnswer` is outside `controllers.go`; it renders
the uniform envelope `{data, success, message, payload}` from its four arguments, which
this record keeps. -/
structure JSONAnswer where
  data : String
  success : Bool
  message : String
  payload : String
  deriving DecidableEq, Repr

/-- The envelope built from the four arguments, in the order of the calls in the source. -/
def GetJSONAnswer (data : String) (success : Bool) (message : String) (payload : String) :
    JSONAnswer :=
  { data := data, success := success, message := message, payload := payload }

/-- A call a handler made to a collaborator, in the order of the calls. -/
inductive Effect where
  | GetUserByEmail (email : String)
  | GetUserByAuth (login : String) (hash : List Nat)
  | GetNewPassword
  | SaveUser (user : UserData)
  | SendEmail (address : String) (body : String)
  | Encrypt (plain : String)
  deriving DecidableEq, Repr

/-- What a handler did: the response headers it set, the envelope it wrote to the body
(`none` when it wrote nothing) and the calls it made. -/
structure Outcome where
  headers : List (String × String)
  answer : Option JSONAnswer
  effects : List Effect
  deriving DecidableEq, Repr

/-- The header every handler sets first. -/
def corsHeader : String × String := ("Access-Control-Allow-Origin", "*")

/-- Write an envelope and return. -/
def reply (effects : List Effect) (a : JSONAnswer) : Outcome :=
  { headers := [corsHeader], answer := some a, effects := effects }

/-! ## The handlers -/

/-- The second half of `ChangePasswordHandler`, from the expiry comparison to the end of
the function, for the token that `json.Unmarshal` produced: the comparison
`token.TTL-time.Now().Unix() > 0`, `GetUserByEmail` (whose second result is dropped),
`GetNewPassword`, `SaveUser`, and for a positive user id the mail and the auth token
(whose encryption error is dropped). -/
def changePasswordForToken (c : Controllers) (rt : Runtime) (token : Token) : Outcome :=
  if subInt64 token.TTL rt.Now > 0 then
    reply [] (GetJSONAnswer "" false "Просроченная ссылка!" "")
  else
    let got := c.Db.GetUserByEmail token.Email
    if got.2.2 ≠ none then
      reply [.GetUserByEmail token.Email] (GetJSONAnswer "" false "Некорректный email!" "")
    else
      let pw := rt.GetNewPassword
      if pw.2 ≠ none then
        reply [.GetUserByEmail token.Email, .GetNewPassword]
          (GetJSONAnswer "" false "Password generation error!" "")
      else
        let userData : UserData := { got.1 with PswdHashB := c.Crypto.GetSHA256Bytes pw.1 }
        let saved := c.Db.SaveUser userData
        if saved.2.2 ≠ none then
          reply [.GetUserByEmail token.Email, .GetNewPassword, .SaveUser userData]
            (GetJSONAnswer "" false "Save new password error!" "")
        else if saved.1 > 0 then
          let body := "Subject: Ваш пароль\\n " ++ pw.1
          match c.SMTP.SendEmail userData.Email body with
          | some msg =>
            reply [.GetUserByEmail token.Email, .GetNewPassword, .SaveUser userData,
                .SendEmail userData.Email body]
              (GetJSONAnswer "" false msg "")
          | none =>
            let plain := c.Crypto.GetTokenJSON saved.1
            let enc := c.Crypto.EncryptTextAES256Base64 plain
            reply [.GetUserByEmail token.Email, .GetNewPassword, .SaveUser userData,
                .SendEmail userData.Email body, .Encrypt plain]
              (GetJSONAnswer enc.1 true "" "")
        else
          reply [.GetUserByEmail token.Email, .GetNewPassword, .SaveUser userData]
            (GetJSONAnswer "" false "Ошибка смены пароля!" "")

/-- `ChangePasswordHandler`: redeem a reset link.  The first half of the function, in the
order of the source: the method, the empty token, the decryption, `json.Unmarshal`; the
parsed token then goes through `changePasswordForToken`. -/
def ChangePasswordHandler (c : Controllers) (rt : Runtime) (r : Request) : Outcome :=
  if r.Method ≠ "GET" then reply [] (GetJSONAnswer "" false "Wrong method!" "")
  else
    let linkData := r.TokenVar
    if linkData.length = 0 then reply [] (GetJSONAnswer "" false "Empty token!" "")
    else
      let dec := c.Crypto.DecryptTextAES256 linkData
      if dec.2 ≠ none then reply [] (GetJSONAnswer "" false "Token decryption error!" "")
      else
        let parsed := Unmarshal dec.1
        if parsed.2 ≠ none then reply [] (GetJSONAnswer "" false "Некорректная ссылка!" "")
        else changePasswordForToken c rt parsed.1

/-- `SendRestorePasswordEmailHandler`: issue a reset link.  The payload is
`Sprintf` of the request email and `c.Crypto.PasswordEmailTTL`; it is encrypted and the
link is mailed to the request email. -/
def SendRestorePasswordEmailHandler (c : Controllers) (rt : Runtime) (r : Request) : Outcome :=
  if r.Method ≠ "POST" then reply [] (GetJSONAnswer "" false "Wrong method!" "")
  else
    let conv := rt.ConvertBody2Token r.Body
    if conv.2 ≠ none then reply [] (GetJSONAnswer "" false "Wrong data!" "")
    else
      let tokenItem := conv.1
      if !rt.CheckEmailFormat tokenItem.Email then
        reply [] (GetJSONAnswer "" false "Некорректный EMail формат!" "")
      else
        let plain := sprintfEmailTTL tokenItem.Email c.Crypto.PasswordEmailTTL
        let enc := c.Crypto.EncryptTextAES256Base64 plain
        if enc.2 ≠ none then
          reply [.Encrypt plain] (GetJSONAnswer "" false "Decrypt error!" "")
        else
          let linkData := enc.1
          let body := "Subject: Смена пароля: " ++ c.Crypto.RestorePasswordURL ++ linkData
          if c.SMTP.SendEmail tokenItem.Email body ≠ none then
            reply [.Encrypt plain, .SendEmail tokenItem.Email body]
              (GetJSONAnswer "" false "EMail link error!" "")
          else
            reply [.Encrypt plain, .SendEmail tokenItem.Email body]
              (GetJSONAnswer "" true "Вам отправлен EMail с инструкциями!" "")

/-- `RegistrationHandler`: create an account.  The email is lower-cased before the format
check; `SaveUser` failures other than code `22024` answer "Save error!"; after that the
branch is on `userID > 0` alone. -/
def RegistrationHandler (c : Controllers) (rt : Runtime) (r : Request) : Outcome :=
  if r.Method ≠ "POST" then reply [] (GetJSONAnswer "" false "Wrong method!" "")
  else
    let conv := rt.ConvertBody2UserData r.Body
    if conv.2 ≠ none then reply [] (GetJSONAnswer "" false "Bad data" "")
    else
      let userData0 : UserData := { conv.1 with Email := ToLower conv.1.Email }
      if !rt.CheckEmailFormat userData0.Email then
        reply [] (GetJSONAnswer "" false "Некорректный EMail формат!" "")
      else
        let pw := rt.GetNewPassword
        if pw.2 ≠ none then
          reply [.GetNewPassword] (GetJSONAnswer "" false "Password error" "")
        else
          let userData : UserData :=
            { userData0 with PswdHashB := c.Crypto.GetSHA256Bytes pw.1 }
          let saved := c.Db.SaveUser userData
          if saved.2.2 ≠ none ∧ saved.2.1 ≠ "22024" then
            reply [.GetNewPassword, .SaveUser userData]
              (GetJSONAnswer "" false "Save error!" "")
          else if saved.1 > 0 then
            let body := "Subject: Ваш пароль\\n" ++ pw.1
            match c.SMTP.SendEmail userData.Email body with
            | some msg =>
              reply [.GetNewPassword, .SaveUser userData, .SendEmail userData.Email body]
                (GetJSONAnswer "" false msg "")
            | none =>
              let plain := c.Crypto.GetTokenJSON saved.1
              let enc := c.Crypto.EncryptTextAES256Base64 plain
              reply [.GetNewPassword, .SaveUser userData, .SendEmail userData.Email body,
                  .Encrypt plain]
                (GetJSONAnswer enc.1 true "" "")
          else
            reply [.GetNewPassword, .SaveUser userData]
              (GetJSONAnswer "" false "Такой EMail уже используется!" "")

/-- `GetAuthTokenHandler`: log in.  The user is looked up by login and password digest; a
positive `UserID` gets an auth token (whose encryption error is dropped). -/
def GetAuthTokenHandler (c : Controllers) (rt : Runtime) (r : Request) : Outcome :=
  if r.Method ≠ "POST" then reply [] (GetJSONAnswer "" false "Wrong method!" "")
  else
    let conv := rt.ConvertBody2LogoPassData r.Body
    if conv.2 ≠ none then reply [] (GetJSONAnswer "" false "Wrong data!" "")
    else
      let afd := conv.1
      let hash := c.Crypto.GetSHA256Bytes afd.Password
      let got := c.Db.GetUserByAuth afd.Login hash
      if got.2.2 ≠ none then
        reply [.GetUserByAuth afd.Login hash] (GetJSONAnswer "" false "User not found!" "")
      else
        let userData := got.1
        if userData.UserID > 0 then
          let plain := c.Crypto.GetTokenJSON userData.UserID
          let enc := c.Crypto.EncryptTextAES256Base64 plain
          reply [.GetUserByAuth afd.Login hash, .Encrypt plain]
            (GetJSONAnswer enc.1 true "" "")
        else
          reply [.GetUserByAuth afd.Login hash]
            (GetJSONAnswer "" false "Не верный логин или пароль!" "")

/-- `GetTestDataByTokenHandler`: the protected resource.  `OPTIONS` only sets a header;
`POST` answers by the result of `CheckAuthToken` on the `Authorization` header. -/
def GetTestDataByTokenHandler (c : Controllers) (r : Request) : Outcome :=
  if r.Method ≠ "POST" ∧ r.Method ≠ "OPTIONS" then
    reply [] (GetJSONAnswer "" false "Wrong method!" "")
  else if r.Method = "OPTIONS" then
    { headers := [corsHeader, ("Access-Control-Allow-Headers", "Content-Type, Authorization")],
      answer := none, effects := [] }
  else
    let res := c.Crypto.CheckAuthToken r.Authorization
    if res.2 ≠ none then reply [] (GetJSONAnswer "" false "Token validation error!" "")
    else if !res.1 then reply [] (GetJSONAnswer "" false "Невалидный токен!" "")
    else reply [] (GetJSONAnswer "" true "" "\x7b\"param\":\"value\"\x7d")

/-! ## Sample collaborators, for evaluating the handlers on concrete requests -/

/-- A store that answers every lookup with `found` and every save with `saved`. -/
def fixedDb (found : UserData × Bool × GoError) (saved : Int × String × GoError) : Datastore :=
  { GetUserByEmail := fun _ => found
    GetUserByAuth := fun _ _ => found
    SaveUser := fun _ => saved }

/-- A cipher that leaves the text unchanged, so that decryption inverts encryption, with
reset TTL `ttl`; `CheckAuthToken` accepts exactly the header `good` and reports an error
for the empty header. -/
def plainCrypto (ttl : Int) : CryptoData :=
  { PasswordEmailTTL := ttl
    RestorePasswordURL := "https://host/changepassword/"
    DecryptTextAES256 := fun t => (t, none)
    EncryptTextAES256Base64 := fun p => (p, none)
    GetTokenJSON := fun uid => "\x7b\"id\":" ++ String.mk (formatInt uid) ++ "\x7d"
    GetSHA256Bytes := fun p => p.data.map Char.toNat
    CheckAuthToken := fun h => if h = "" then (false, some "empty token") else (h == "good", none) }

/-- The cipher `plainCrypto` with an encryption that always fails. -/
def brokenEncryptCrypto (ttl : Int) : CryptoData :=
  { plainCrypto ttl with
    EncryptTextAES256Base64 := fun _ => ("", some "crypto/aes: invalid key size 5") }

/-- The cipher `plainCrypto` with a decryption that reports a malformed text form for the
token `%%%` and a failed decryption for the token `QUJD`. -/
def pickyDecryptCrypto (ttl : Int) : CryptoData :=
  { plainCrypto ttl with
    DecryptTextAES256 := fun t =>
      if t = "%%%" then ("", some "illegal base64 data at input byte 0")
      else if t = "QUJD" then ("", some "cipher: message authentication failed")
      else (t, none) }

/-- A mailer that accepts every message. -/
def okMail : SMTPData := { SendEmail := fun _ _ => none }

/-- The clock at `now`, a generated password `pw1`, a format check that wants an `@`, body
decoders that take the body as the email (or login). -/
def sampleRuntime (now : Int) : Runtime :=
  { Now := now
    GetNewPassword := ("pw1", none)
    CheckEmailFormat := fun e => e.data.any (fun ch => ch.toNat == 64)
    ConvertBody2UserData := fun b => ({ UserID := 0, Email := b, PswdHashB := [] }, none)
    ConvertBody2Token := fun b => ({ Email := b, TTL := 0 }, none)
    ConvertBody2LogoPassData := fun b => ({ Login := b, Password := "secret" }, none) }

/-- A request with the given method, body, route token and `Authorization` header. -/
def mkRequest (method body token authorization : String) : Request :=
  { Method := method, Body := body, TokenVar := token, Authorization := authorization }

/-- A stored user. -/
def storedUser (uid : Int) (email : String) : UserData :=
  { UserID := uid, Email := email, PswdHashB := [1, 2, 3] }

/-! ## Theorems -/

set_option maxRecDepth 100000

/-- C5: for every POST request `GetTestDataByTokenHandler` writes an envelope; it is the
success envelope carrying the payload `{"param":"value"}` exactly when `CheckAuthToken` on
the `Authorization` header returns `(true, nil)`, and otherwise (an error, or `false`) it
has `success = false` and an empty payload. -/
theorem GetTestDataByTokenHandler_post (c : Controllers) (r : Request)
    (hpost : r.Method = "POST") :
    ∃ a, (GetTestDataByTokenHandler c r).answer = some a ∧
      (a.success = true ↔ c.Crypto.CheckAuthToken r.Authorization = (true, none)) ∧
      (a = GetJSONAnswer "" true "" "\x7b\"param\":\"value\"\x7d" ↔
        c.Crypto.CheckAuthToken r.Authorization = (true, none)) ∧
      (c.Crypto.CheckAuthToken r.Authorization ≠ (true, none) →
        a.success = false ∧ a.payload = "") := by
  have h1 : ¬ (r.Method ≠ "POST" ∧ r.Method ≠ "OPTIONS") := by simp [hpost]
  have h2 : ¬ (r.Method = "OPTIONS") := by rw [hpost]; decide
  unfold GetTestDataByTokenHandler
  rw [if_neg h1, if_neg h2]
  rcases hres : c.Crypto.CheckAuthToken r.Authorization with ⟨ok, err⟩
  cases err with
  | some msg => exact ⟨_, rfl, by simp [GetJSONAnswer], by simp [GetJSONAnswer], by simp [GetJSONAnswer]⟩
  | none =>
    cases ok with
    | false => exact ⟨_, rfl, by simp [GetJSONAnswer], by simp [GetJSONAnswer], by simp [GetJSONAnswer]⟩
    | true => exact ⟨_, rfl, by simp [GetJSONAnswer], by simp [GetJSONAnswer], by simp⟩

/-- Witness of C5: a POST request with the accepted header gets the protected payload. -/
theorem GetTestDataByTokenHandler_post_witness :
    ∃ a, (GetTestDataByTokenHandler
        ⟨fixedDb (storedUser 7 "a@b.com", true, none) (7, "", none), plainCrypto 600, okMail⟩
        (mkRequest "POST" "" "" "good")).answer = some a ∧
      (a.success = true ↔ (plainCrypto 600).CheckAuthToken "good" = (true, none)) ∧
      (a = GetJSONAnswer "" true "" "\x7b\"param\":\"value\"\x7d" ↔
        (plainCrypto 600).CheckAuthToken "good" = (true, none)) ∧
      ((plainCrypto 600).CheckAuthToken "good" ≠ (true, none) →
        a.success = false ∧ a.payload = "") :=
  GetTestDataByTokenHandler_post
    ⟨fixedDb (storedUser 7 "a@b.com", true, none) (7, "", none), plainCrypto 600, okMail⟩
    (mkRequest "POST" "" "" "good") rfl

/-- C3, as stated, fails: a store that returns the conflict code `22024` together with a
positive user id makes `RegistrationHandler` mail the password and answer with an auth
token, because after the "Save error!" test the handler looks at `userID > 0` only. -/
theorem RegistrationHandler_conflict_counterexample :
    ((fixedDb (storedUser 0 "", false, none) (7, "22024", some "duplicate email")).SaveUser
        { UserID := 0, Email := "a@b.com", PswdHashB := [112, 119, 49] }).2.1 = "22024" ∧
    RegistrationHandler
        ⟨fixedDb (storedUser 0 "", false, none) (7, "22024", some "duplicate email"),
          plainCrypto 600, okMail⟩
        (sampleRuntime 1000) (mkRequest "POST" "a@b.com" "" "") =
      reply
        [.GetNewPassword,
          .SaveUser { UserID := 0, Email := "a@b.com", PswdHashB := [112, 119, 49] },
          .SendEmail "a@b.com" "Subject: Ваш пароль\\npw1",
          .Encrypt "\x7b\"id\":7\x7d"]
        (GetJSONAnswer "\x7b\"id\":7\x7d" true "" "") := by
  decide

/-- C3, amended: when the request reaches `SaveUser` and `SaveUser` returns the conflict
code `22024` with a user id that is not positive, the answer is `success = false` with
the message "Такой EMail уже используется!", no mail is sent and no auth token is
encrypted. -/
theorem RegistrationHandler_conflict (c : Controllers) (rt : Runtime) (r : Request)
    (u : UserData)
    (hreach : Effect.SaveUser u ∈ (RegistrationHandler c rt r).effects)
    (hcode : (c.Db.SaveUser u).2.1 = "22024")
    (hid : (c.Db.SaveUser u).1 ≤ 0) :
    (RegistrationHandler c rt r).answer =
        some (GetJSONAnswer "" false "Такой EMail уже используется!" "") ∧
      (∀ a b, Effect.SendEmail a b ∉ (RegistrationHandler c rt r).effects) ∧
      (∀ p, Effect.Encrypt p ∉ (RegistrationHandler c rt r).effects) := by
  unfold RegistrationHandler at hreach ⊢
  simp only [] at hreach ⊢
  split_ifs at hreach ⊢ with h1 h2 h3 h4 h5 h6
  all_goals simp_all [reply]
  split at hreach <;> simp_all <;> omega

/-- Witness of the amended C3: a store answering the save with `(0, "22024", error)`. -/
theorem RegistrationHandler_conflict_witness :
    (RegistrationHandler
        ⟨fixedDb (storedUser 0 "", false, none) (0, "22024", some "duplicate email"),
          plainCrypto 600, okMail⟩
        (sampleRuntime 1000) (mkRequest "POST" "a@b.com" "" "")).answer =
        some (GetJSONAnswer "" false "Такой EMail уже используется!" "") ∧
      (∀ a b, Effect.SendEmail a b ∉ (RegistrationHandler
        ⟨fixedDb (storedUser 0 "", false, none) (0, "22024", some "duplicate email"),
          plainCrypto 600, okMail⟩
        (sampleRuntime 1000) (mkRequest "POST" "a@b.com" "" "")).effects) ∧
      (∀ p, Effect.Encrypt p ∉ (RegistrationHandler
        ⟨fixedDb (storedUser 0 "", false, none) (0, "22024", some "duplicate email"),
          plainCrypto 600, okMail⟩
        (sampleRuntime 1000) (mkRequest "POST" "a@b.com" "" "")).effects) :=
  RegistrationHandler_conflict
    ⟨fixedDb (storedUser 0 "", false, none) (0, "22024", some "duplicate email"),
      plainCrypto 600, okMail⟩
    (sampleRuntime 1000) (mkRequest "POST" "a@b.com" "" "")
    { UserID := 0, Email := "a@b.com", PswdHashB := [112, 119, 49] }
    (by decide) (by decide) (by decide)

/-- C4, the code: the three handlers read only the text that
`EncryptTextAES256Base64` returns, so replacing the error it returns by any other changes
no outcome; and at the failing input, an encryption that returns an error for every text,
each of the three handlers answers `success = true` with the empty string that the failed
call returned as the token. -/
theorem auth_token_encrypt_error_ignored :
    (∀ (c : Controllers) (rt : Runtime) (r : Request) (e : GoError),
      GetAuthTokenHandler
          { c with Crypto := { c.Crypto with EncryptTextAES256Base64 := fun p =>
            ((c.Crypto.EncryptTextAES256Base64 p).1, e) } } rt r =
        GetAuthTokenHandler c rt r ∧
      RegistrationHandler
          { c with Crypto := { c.Crypto with EncryptTextAES256Base64 := fun p =>
            ((c.Crypto.EncryptTextAES256Base64 p).1, e) } } rt r =
        RegistrationHandler c rt r ∧
      ChangePasswordHandler
          { c with Crypto := { c.Crypto with EncryptTextAES256Base64 := fun p =>
            ((c.Crypto.EncryptTextAES256Base64 p).1, e) } } rt r =
        ChangePasswordHandler c rt r) ∧
    (brokenEncryptCrypto 600).EncryptTextAES256Base64 ((brokenEncryptCrypto 600).GetTokenJSON 7) =
      ("", some "crypto/aes: invalid key size 5") ∧
    (GetAuthTokenHandler
        ⟨fixedDb (storedUser 7 "a@b.com", true, none) (7, "", none),
          brokenEncryptCrypto 600, okMail⟩
        (sampleRuntime 1000) (mkRequest "POST" "a@b.com" "" "")).answer =
      some (GetJSONAnswer "" true "" "") ∧
    (RegistrationHandler
        ⟨fixedDb (storedUser 7 "a@b.com", true, none) (7, "", none),
          brokenEncryptCrypto 600, okMail⟩
        (sampleRuntime 1000) (mkRequest "POST" "a@b.com" "" "")).answer =
      some (GetJSONAnswer "" true "" "") ∧
    (ChangePasswordHandler
        ⟨fixedDb (storedUser 7 "a@b.com", true, none) (7, "", none),
          brokenEncryptCrypto 600, okMail⟩
        (sampleRuntime 1000)
        (mkRequest "GET" "" "\x7b\"email\":\"a@b.com\", \"ttl\":600\x7d" "")).answer =
      some (GetJSONAnswer "" true "" "") := by
  refine ⟨fun c rt r e => ⟨rfl, rfl, rfl⟩, by decide, by decide, by decide, by decide⟩

/-- C7, as stated, fails: a token whose text form is malformed and a token whose
ciphertext fails decryption both surface as the one error of `DecryptTextAES256`, and
`ChangePasswordHandler` gives the two the same response.  (A decrypted plaintext is
refused only when `json.Unmarshal` returns an error: the auth payload with the one member
`id` parses, to the token with an empty email, and the handler goes on to the lookup.) -/
theorem ChangePasswordHandler_decode_kinds_counterexample :
    (pickyDecryptCrypto 600).DecryptTextAES256 "%%%" =
      ("", some "illegal base64 data at input byte 0") ∧
    (pickyDecryptCrypto 600).DecryptTextAES256 "QUJD" =
      ("", some "cipher: message authentication failed") ∧
    ChangePasswordHandler
        ⟨fixedDb (storedUser 7 "a@b.com", true, none) (7, "", none),
          pickyDecryptCrypto 600, okMail⟩
        (sampleRuntime 1000) (mkRequest "GET" "" "%%%" "") =
      ChangePasswordHandler
        ⟨fixedDb (storedUser 7 "a@b.com", true, none) (7, "", none),
          pickyDecryptCrypto 600, okMail⟩
        (sampleRuntime 1000) (mkRequest "GET" "" "QUJD" "") ∧
    Unmarshal "\x7b\"id\":7\x7d" = ({ Email := "", TTL := 0 }, none) ∧
    (ChangePasswordHandler
        ⟨fixedDb (storedUser 7 "a@b.com", true, none) (7, "", none),
          pickyDecryptCrypto 600, okMail⟩
        (sampleRuntime 1000) (mkRequest "GET" "" "\x7b\"id\":7\x7d" "")).effects.head? =
      some (.GetUserByEmail "") := by
  decide

/-- C7, amended: `ChangePasswordHandler` distinguishes two decoding failures.  For a GET
request with a non-empty token, every error of `DecryptTextAES256` (whatever its kind)
gives "Token decryption error!", a decrypted text on which `json.Unmarshal` returns an
error gives "Некорректная ссылка!", and these two responses differ. -/
theorem ChangePasswordHandler_decode_failures (c : Controllers) (rt : Runtime) (r : Request)
    (hget : r.Method = "GET") (htoken : r.TokenVar.length ≠ 0) :
    ((c.Crypto.DecryptTextAES256 r.TokenVar).2 ≠ none →
      ChangePasswordHandler c rt r =
        reply [] (GetJSONAnswer "" false "Token decryption error!" "")) ∧
    ((c.Crypto.DecryptTextAES256 r.TokenVar).2 = none →
      (Unmarshal (c.Crypto.DecryptTextAES256 r.TokenVar).1).2 ≠ none →
      ChangePasswordHandler c rt r =
        reply [] (GetJSONAnswer "" false "Некорректная ссылка!" "")) ∧
    reply [] (GetJSONAnswer "" false "Token decryption error!" "") ≠
      reply [] (GetJSONAnswer "" false "Некорректная ссылка!" "") := by
  refine ⟨?_, ?_, by decide⟩
  · intro hdec
    unfold ChangePasswordHandler
    simp only []
    rw [if_neg (by simp [hget]), if_neg htoken, if_pos hdec]
  · intro hdec hparse
    unfold ChangePasswordHandler
    simp only []
    rw [if_neg (by simp [hget]), if_neg htoken, if_neg (by simp [hdec]), if_pos hparse]

/-- Witness of the amended C7: the token `%%%` at a cipher that refuses it, and the token
`no json`, which the cipher returns as it is and `json.Unmarshal` refuses. -/
theorem ChangePasswordHandler_decode_failures_witness :
    ((mkRequest "GET" "" "%%%" "").Method = "GET" ∧
      (mkRequest "GET" "" "%%%" "").TokenVar.length ≠ 0 ∧
      (mkRequest "GET" "" "no json" "").Method = "GET" ∧
      (mkRequest "GET" "" "no json" "").TokenVar.length ≠ 0) ∧
    ChangePasswordHandler
        ⟨fixedDb (storedUser 7 "a@b.com", true, none) (7, "", none),
          pickyDecryptCrypto 600, okMail⟩
        (sampleRuntime 1000) (mkRequest "GET" "" "%%%" "") =
      reply [] (GetJSONAnswer "" false "Token decryption error!" "") ∧
    ChangePasswordHandler
        ⟨fixedDb (storedUser 7 "a@b.com", true, none) (7, "", none),
          pickyDecryptCrypto 600, okMail⟩
        (sampleRuntime 1000) (mkRequest "GET" "" "no json" "") =
      reply [] (GetJSONAnswer "" false "Некорректная ссылка!" "") :=
  ⟨⟨rfl, by decide, rfl, by decide⟩,
    (ChangePasswordHandler_decode_failures
      ⟨fixedDb (storedUser 7 "a@b.com", true, none) (7, "", none),
        pickyDecryptCrypto 600, okMail⟩
      (sampleRuntime 1000) (mkRequest "GET" "" "%%%" "") rfl (by decide)).1 (by decide),
    (ChangePasswordHandler_decode_failures
      ⟨fixedDb (storedUser 7 "a@b.com", true, none) (7, "", none),
        pickyDecryptCrypto 600, okMail⟩
      (sampleRuntime 1000) (mkRequest "GET" "" "no json" "") rfl (by decide)).2.1
      (by decide) (by decide)⟩

/-- The code of a character built from a number below the surrogate range. -/
theorem toNat_ofNat_small (n : Nat) (h : n < 55296) : (Char.ofNat n).toNat = n := by
  have hv : n.isValidChar := Or.inl h
  unfold Char.ofNat
  rw [dif_pos hv]
  simp [Char.ofNatAux, Char.toNat, UInt32.toNat]

/-- Wrapping leaves an `int64` value as it is. -/
theorem wrapInt64_of_isInt64 (x : Int) (h : isInt64 x) : wrapInt64 x = x := by
  unfold isInt64 at h
  unfold wrapInt64
  rw [Int.emod_eq_of_lt (by omega) (by omega)]
  omega

/-- The expiry comparison of `ChangePasswordHandler` in general: when the difference fits
`int64`, the handler answers "Просроченная ссылка!" exactly for the tokens whose expiry
lies after the current time. -/
theorem changePasswordForToken_expired_iff (c : Controllers) (rt : Runtime) (token : Token)
    (hrange : isInt64 (token.TTL - rt.Now)) :
    changePasswordForToken c rt token =
        reply [] (GetJSONAnswer "" false "Просроченная ссылка!" "") ↔
      rt.Now < token.TTL := by
  have hsub : subInt64 token.TTL rt.Now = token.TTL - rt.Now :=
    wrapInt64_of_isInt64 _ hrange
  unfold changePasswordForToken
  simp only [hsub]
  by_cases hlt : rt.Now < token.TTL
  · rw [if_pos (by omega)]
    simp [hlt]
  · rw [if_neg (by omega)]
    simp only [hlt, iff_false]
    split_ifs
    all_goals try split
    all_goals simp [reply]

/-- C1, the code at the failing inputs: the comparison `token.TTL-time.Now().Unix() > 0`
answers "Просроченная ссылка!" for a token that expires in the future and lets a token of
the past through.  At `now = 1000` the token with expiry `1001` is rejected without a
storage call and the token with expiry `999` reaches `GetUserByEmail`; the token with
expiry `1600` is rejected at `now = 1599` and redeemed at `now = 1601`. -/
theorem ChangePasswordHandler_expiry_inverted :
    ChangePasswordHandler
        ⟨fixedDb (storedUser 7 "a@b.com", true, none) (7, "", none), plainCrypto 600, okMail⟩
        (sampleRuntime 1000)
        (mkRequest "GET" "" "\x7b\"email\":\"a@b.com\", \"ttl\":1001\x7d" "") =
      reply [] (GetJSONAnswer "" false "Просроченная ссылка!" "") ∧
    (ChangePasswordHandler
        ⟨fixedDb (storedUser 7 "a@b.com", true, none) (7, "", none), plainCrypto 600, okMail⟩
        (sampleRuntime 1000)
        (mkRequest "GET" "" "\x7b\"email\":\"a@b.com\", \"ttl\":999\x7d" "")).effects.head? =
      some (.GetUserByEmail "a@b.com") ∧
    ChangePasswordHandler
        ⟨fixedDb (storedUser 7 "a@b.com", true, none) (7, "", none), plainCrypto 600, okMail⟩
        (sampleRuntime 1599)
        (mkRequest "GET" "" "\x7b\"email\":\"a@b.com\", \"ttl\":1600\x7d" "") =
      reply [] (GetJSONAnswer "" false "Просроченная ссылка!" "") ∧
    ChangePasswordHandler
        ⟨fixedDb (storedUser 7 "a@b.com", true, none) (7, "", none), plainCrypto 600, okMail⟩
        (sampleRuntime 1601)
        (mkRequest "GET" "" "\x7b\"email\":\"a@b.com\", \"ttl\":1600\x7d" "") =
      reply
        [.GetUserByEmail "a@b.com", .GetNewPassword,
          .SaveUser { UserID := 7, Email := "a@b.com", PswdHashB := [112, 119, 49] },
          .SendEmail "a@b.com" "Subject: Ваш пароль\\n pw1",
          .Encrypt "\x7b\"id\":7\x7d"]
        (GetJSONAnswer "\x7b\"id\":7\x7d" true "" "") := by
  decide

/-- C2, the code: `SendRestorePasswordEmailHandler` never reads the clock, so its outcome
is the same at every request time, and the payload it encrypts carries the configured TTL
itself.  At `now = 1000` with TTL `600` the encrypted text has `"ttl":600`, which
`json.Unmarshal` reads back as `600`, not as `1600`. -/
theorem SendRestorePasswordEmailHandler_ttl_without_clock :
    (∀ (c : Controllers) (rt : Runtime) (r : Request) (now : Int),
      SendRestorePasswordEmailHandler c { rt with Now := now } r =
        SendRestorePasswordEmailHandler c rt r) ∧
    (SendRestorePasswordEmailHandler
        ⟨fixedDb (storedUser 7 "a@b.com", true, none) (7, "", none), plainCrypto 600, okMail⟩
        (sampleRuntime 1000) (mkRequest "POST" "a@b.com" "" "")).effects =
      [.Encrypt "\x7b\"email\":\"a@b.com\", \"ttl\":600\x7d",
        .SendEmail "a@b.com"
          ("Subject: Смена пароля: https://host/changepassword/" ++
            "\x7b\"email\":\"a@b.com\", \"ttl\":600\x7d")] ∧
    Unmarshal "\x7b\"email\":\"a@b.com\", \"ttl\":600\x7d" =
      ({ Email := "a@b.com", TTL := 600 }, none) := by
  refine ⟨fun c rt r now => rfl, by decide, by decide⟩

/-- The lower-case table is closed: no image of a run lies on a run. -/
theorem lowerCaseRanges_closed : tableClosed lowerCaseRanges = true := by decide

/-- Every run after the first starts above ASCII. -/
theorem upperRanges_above_ascii : upperRanges.all (fun e => decide (128 ≤ e.lo)) = true := by
  decide

/-- The code point zero is left as it is. -/
theorem lowerCode_zero : lowerCode 0 = 0 := by decide

/-- The test `imageAvoids` is sound: an image of `e` is not on `d`. -/
theorem imageAvoids_sound (e d : CaseRange) (n : Nat) (h : imageAvoids e d = true)
    (hn : e.covers n = true) : d.covers (e.target + (n - e.lo)) = false := by
  simp only [imageAvoids, CaseRange.covers, Bool.or_eq_true, Bool.and_eq_true,
    decide_eq_true_eq, beq_iff_eq] at h hn
  obtain ⟨⟨hlo, hhi⟩, hmod⟩ := hn
  rw [Bool.eq_false_iff]
  intro hc
  simp only [CaseRange.covers, Bool.and_eq_true, decide_eq_true_eq, beq_iff_eq] at hc
  obtain ⟨⟨clo, chi⟩, cmod⟩ := hc
  rcases h with (h | h) | ⟨⟨h1, h2⟩, h3⟩
  · omega
  · omega
  · rw [h2] at cmod
    rcases h1 with h1 | h1
    · rw [h1] at hmod
      omega
    · omega

/-- A code point on no run of a table is left as it is. -/
theorem lowerIn_fixed (t : List CaseRange) (m : Nat)
    (h : ∀ d ∈ t, d.covers m = false) : lowerIn t m = m := by
  induction t with
  | nil => rfl
  | cons d ds ih =>
    have hd := h d (List.mem_cons_self _ _)
    simp only [lowerIn, hd, Bool.false_eq_true, ↓reduceIte]
    exact ih (fun x hx => h x (List.mem_cons_of_mem _ hx))

/-- A lookup leaves the code point alone or moves it along a run that covers it. -/
theorem lowerIn_cases (t : List CaseRange) (n : Nat) :
    lowerIn t n = n ∨ ∃ e ∈ t, e.covers n = true ∧ lowerIn t n = e.target + (n - e.lo) := by
  induction t with
  | nil => exact Or.inl rfl
  | cons d ds ih =>
    by_cases hd : d.covers n = true
    · right
      exact ⟨d, List.mem_cons_self _ _, hd, by simp [lowerIn, hd]⟩
    · have hd' : d.covers n = false := by simpa using hd
      rcases ih with h | ⟨e, he, hc, hv⟩
      · left
        simp [lowerIn, hd', h]
      · right
        exact ⟨e, List.mem_cons_of_mem _ he, hc, by simp [lowerIn, hd', hv]⟩

/-- Lower-casing a code point twice is lower-casing it once. -/
theorem lowerCode_idem (n : Nat) : lowerCode (lowerCode n) = lowerCode n := by
  unfold lowerCode
  rcases lowerIn_cases lowerCaseRanges n with h | ⟨e, he, hc, hv⟩
  · rw [h, h]
  · rw [hv]
    apply lowerIn_fixed
    intro d hd
    have hclosed := lowerCaseRanges_closed
    simp only [tableClosed, List.all_eq_true] at hclosed
    exact imageAvoids_sound e d n (hclosed e he d hd) hc

/-- The code of a character built from a valid code point. -/
theorem toNat_ofNat_valid (n : Nat) (h : n.isValidChar) : (Char.ofNat n).toNat = n := by
  unfold Char.ofNat
  rw [dif_pos h]
  simp [Char.ofNatAux, Char.toNat, UInt32.toNat]

/-- A number that is no code point gives the character zero. -/
theorem ofNat_invalid (n : Nat) (h : ¬ n.isValidChar) : Char.ofNat n = Char.ofNat 0 := by
  unfold Char.ofNat
  rw [dif_neg h]
  rfl

/-- Go `unicode.ToLower` is idempotent. -/
theorem unicodeToLower_idem (c : Char) :
    unicodeToLower (unicodeToLower c) = unicodeToLower c := by
  unfold unicodeToLower
  by_cases hv : (lowerCode c.toNat).isValidChar
  · rw [toNat_ofNat_valid _ hv, lowerCode_idem]
  · rw [ofNat_invalid _ hv]
    have h0 : (Char.ofNat 0).toNat = 0 := by decide
    rw [h0, lowerCode_zero]

/-- On ASCII `unicode.ToLower` is the rule `A`..`Z` to `a`..`z`, everything else fixed. -/
theorem unicodeToLower_ascii (c : Char) (h : c.toNat < 128) :
    unicodeToLower c = lowerAscii c := by
  have hrest : lowerIn upperRanges c.toNat = c.toNat := by
    apply lowerIn_fixed
    intro d hd
    have := upperRanges_above_ascii
    simp only [List.all_eq_true, decide_eq_true_eq] at this
    have hlo := this d hd
    simp only [CaseRange.covers, Bool.and_eq_false_imp, Bool.and_eq_true, decide_eq_true_eq]
    intro h1
    omega
  have hstep : lowerCode c.toNat =
      if (CaseRange.mk 65 90 1 97).covers c.toNat then 97 + (c.toNat - 65)
      else lowerIn upperRanges c.toNat := rfl
  unfold unicodeToLower lowerAscii
  rw [hstep, hrest]
  by_cases hA : 65 ≤ c.toNat ∧ c.toNat ≤ 90
  · have hcov : (CaseRange.mk 65 90 1 97).covers c.toNat = true := by
      simp [CaseRange.covers, hA.1, hA.2, Nat.mod_one]
    rw [if_pos hcov, if_pos hA]
    congr 1
    omega
  · have hcov : ¬ (CaseRange.mk 65 90 1 97).covers c.toNat = true := by
      simp only [CaseRange.covers, Bool.and_eq_true, decide_eq_true_eq]
      intro h1
      omega
    rw [if_neg hcov, if_neg hA]
    exact Char.ofNat_toNat c

/-- Go `strings.ToLower` is idempotent. -/
theorem ToLower_idem (s : String) : ToLower (ToLower s) = ToLower s := by
  simp [ToLower, List.map_map, Function.comp_def, unicodeToLower_idem]

/-- A lower-cased rune is no ASCII capital. -/
theorem unicodeToLower_not_capital (c : Char) :
    ¬ (65 ≤ (unicodeToLower c).toNat ∧ (unicodeToLower c).toNat ≤ 90) := by
  intro hcap
  have hfix := unicodeToLower_idem c
  rw [unicodeToLower_ascii (unicodeToLower c) (by omega)] at hfix
  have hne : (lowerAscii (unicodeToLower c)).toNat = (unicodeToLower c).toNat + 32 := by
    unfold lowerAscii
    rw [if_pos hcap]
    exact toNat_ofNat_small _ (by omega)
  rw [hfix] at hne
  omega

/-- C8: when `RegistrationHandler` reaches `SaveUser` with the record `u`, for the request
email `s`: `u.Email` is `strings.ToLower s` and every mail of the request is addressed to
it; `u.Email` is `s` rune by rune under `unicode.ToLower`, which on ASCII turns `A`..`Z`
into `a`..`z` and leaves the rest, so no ASCII capital is stored; lower-casing is
idempotent, so lower-casing the stored email again changes nothing and a request email
that is already lower-case is stored unchanged. -/
theorem RegistrationHandler_email_lowercased (c : Controllers) (rt : Runtime) (r : Request)
    (u : UserData)
    (hreach : Effect.SaveUser u ∈ (RegistrationHandler c rt r).effects) :
    u.Email = ToLower (rt.ConvertBody2UserData r.Body).1.Email ∧
      (∀ a b, Effect.SendEmail a b ∈ (RegistrationHandler c rt r).effects →
        a = ToLower (rt.ConvertBody2UserData r.Body).1.Email) ∧
      u.Email.data = (rt.ConvertBody2UserData r.Body).1.Email.data.map unicodeToLower ∧
      (∀ ch : Char, ch.toNat < 128 → unicodeToLower ch =
        if 65 ≤ ch.toNat ∧ ch.toNat ≤ 90 then Char.ofNat (ch.toNat + 32) else ch) ∧
      (∀ ch ∈ u.Email.data, ¬ (65 ≤ ch.toNat ∧ ch.toNat ≤ 90)) ∧
      (∀ ch ∈ u.Email.data, unicodeToLower ch = ch) ∧
      (∀ t, ToLower (ToLower t) = ToLower t) ∧
      ToLower u.Email = u.Email ∧
      (ToLower (rt.ConvertBody2UserData r.Body).1.Email =
          (rt.ConvertBody2UserData r.Body).1.Email →
        u.Email = (rt.ConvertBody2UserData r.Body).1.Email) := by
  have hu : u.Email = ToLower (rt.ConvertBody2UserData r.Body).1.Email := by
    unfold RegistrationHandler at hreach
    simp only [] at hreach
    split_ifs at hreach
    all_goals simp_all [reply]
    split at hreach <;> simp_all
  have hdata : u.Email.data =
      (rt.ConvertBody2UserData r.Body).1.Email.data.map unicodeToLower := by
    rw [hu]; rfl
  refine ⟨hu, ?_, hdata, ?_, ?_, ?_, ToLower_idem, ?_, ?_⟩
  · intro a b hmail
    unfold RegistrationHandler at hmail
    simp only [] at hmail
    split_ifs at hmail
    all_goals simp_all [reply]
    split at hmail <;> simp_all
  · intro ch hch
    exact unicodeToLower_ascii ch hch
  · intro ch hch
    rw [hdata, List.mem_map] at hch
    obtain ⟨x, _, rfl⟩ := hch
    exact unicodeToLower_not_capital x
  · intro ch hch
    rw [hdata, List.mem_map] at hch
    obtain ⟨x, _, rfl⟩ := hch
    exact unicodeToLower_idem x
  · rw [hu, ToLower_idem]
  · intro hfix
    rw [hu, hfix]

/-- Witness of C8: the request email `A.Ü@B.com` is stored and mailed as `a.ü@b.com`;
some more runes of the table are lower-cased along with it. -/
theorem RegistrationHandler_email_lowercased_witness :
    Effect.SaveUser { UserID := 0, Email := "a.ü@b.com", PswdHashB := [112, 119, 49] } ∈
      (RegistrationHandler
        ⟨fixedDb (storedUser 7 "a@b.com", true, none) (7, "", none), plainCrypto 600, okMail⟩
        (sampleRuntime 1000) (mkRequest "POST" "A.Ü@B.com" "" "")).effects ∧
    ToLower "ÀÉÎǅİΣẞЖ-z9" = "àéîǆiσßж-z9" ∧
    "a.ü@b.com" = ToLower "A.Ü@B.com" ∧
    (∀ a b, Effect.SendEmail a b ∈ (RegistrationHandler
        ⟨fixedDb (storedUser 7 "a@b.com", true, none) (7, "", none), plainCrypto 600, okMail⟩
        (sampleRuntime 1000) (mkRequest "POST" "A.Ü@B.com" "" "")).effects →
      a = ToLower "A.Ü@B.com") :=
  ⟨by decide, by decide,
    (RegistrationHandler_email_lowercased
      ⟨fixedDb (storedUser 7 "a@b.com", true, none) (7, "", none), plainCrypto 600, okMail⟩
      (sampleRuntime 1000) (mkRequest "POST" "A.Ü@B.com" "" "")
      { UserID := 0, Email := "a.ü@b.com", PswdHashB := [112, 119, 49] } (by decide)).1,
    (RegistrationHandler_email_lowercased
      ⟨fixedDb (storedUser 7 "a@b.com", true, none) (7, "", none), plainCrypto 600, okMail⟩
      (sampleRuntime 1000) (mkRequest "POST" "A.Ü@B.com" "" "")
      { UserID := 0, Email := "a.ü@b.com", PswdHashB := [112, 119, 49] } (by decide)).2.1⟩

/-- An answer of the second half of `ChangePasswordHandler` with `success = true`
carries the token of the positive user id that `SaveUser` returned. -/
theorem changePasswordForToken_success (c : Controllers) (rt : Runtime) (token : Token)
    (a : JSONAnswer) (hsucc : a.success = true)
    (h : (changePasswordForToken c rt token).answer = some a) :
    ∃ u, Effect.SaveUser u ∈ (changePasswordForToken c rt token).effects ∧
      0 < (c.Db.SaveUser u).1 ∧
      a.data = (c.Crypto.EncryptTextAES256Base64
        (c.Crypto.GetTokenJSON (c.Db.SaveUser u).1)).1 := by
  unfold changePasswordForToken at h ⊢
  simp only [] at h ⊢
  split_ifs at h ⊢ with h5 h6 h7 h8 h9
  all_goals try split at h
  all_goals simp only [reply, GetJSONAnswer, Option.some.injEq] at h
  all_goals subst h
  all_goals try simp at hsucc
  all_goals simp_all
  exact ⟨_, by simp [reply], h9, rfl⟩

/-- The second half of `ChangePasswordHandler` encrypts a token text only for the
positive user id that `SaveUser` returned. -/
theorem changePasswordForToken_encrypt (c : Controllers) (rt : Runtime) (token : Token)
    (p : String) (h : Effect.Encrypt p ∈ (changePasswordForToken c rt token).effects) :
    ∃ u, Effect.SaveUser u ∈ (changePasswordForToken c rt token).effects ∧
      0 < (c.Db.SaveUser u).1 ∧ p = c.Crypto.GetTokenJSON (c.Db.SaveUser u).1 := by
  unfold changePasswordForToken at h ⊢
  simp only [] at h ⊢
  split_ifs at h ⊢ with h5 h6 h7 h8 h9
  all_goals try split at h
  all_goals simp [reply] at h
  all_goals simp_all
  exact ⟨_, by simp [reply], h9, rfl⟩

/-- C9: in each of the three handlers that issue auth tokens, an answer with
`success = true` carries the encryption of `GetTokenJSON uid`, where `uid` is the id that
storage returned in this request (`GetUserByAuth`'s `UserID`, or `SaveUser`'s user id) and
`uid > 0`; and whatever the answer, a token text is encrypted only for such a `uid`. -/
theorem auth_token_user_id_positive (c : Controllers) (rt : Runtime) (r : Request)
    (a : JSONAnswer) (hsucc : a.success = true) :
    ((GetAuthTokenHandler c rt r).answer = some a →
      ∃ login hash, Effect.GetUserByAuth login hash ∈ (GetAuthTokenHandler c rt r).effects ∧
        0 < (c.Db.GetUserByAuth login hash).1.UserID ∧
        a.data = (c.Crypto.EncryptTextAES256Base64
          (c.Crypto.GetTokenJSON (c.Db.GetUserByAuth login hash).1.UserID)).1) ∧
    ((RegistrationHandler c rt r).answer = some a →
      ∃ u, Effect.SaveUser u ∈ (RegistrationHandler c rt r).effects ∧
        0 < (c.Db.SaveUser u).1 ∧
        a.data = (c.Crypto.EncryptTextAES256Base64
          (c.Crypto.GetTokenJSON (c.Db.SaveUser u).1)).1) ∧
    ((ChangePasswordHandler c rt r).answer = some a →
      ∃ u, Effect.SaveUser u ∈ (ChangePasswordHandler c rt r).effects ∧
        0 < (c.Db.SaveUser u).1 ∧
        a.data = (c.Crypto.EncryptTextAES256Base64
          (c.Crypto.GetTokenJSON (c.Db.SaveUser u).1)).1) ∧
    (∀ p, Effect.Encrypt p ∈ (GetAuthTokenHandler c rt r).effects →
      ∃ login hash, Effect.GetUserByAuth login hash ∈ (GetAuthTokenHandler c rt r).effects ∧
        0 < (c.Db.GetUserByAuth login hash).1.UserID ∧
        p = c.Crypto.GetTokenJSON (c.Db.GetUserByAuth login hash).1.UserID) ∧
    (∀ p, Effect.Encrypt p ∈ (RegistrationHandler c rt r).effects →
      ∃ u, Effect.SaveUser u ∈ (RegistrationHandler c rt r).effects ∧
        0 < (c.Db.SaveUser u).1 ∧ p = c.Crypto.GetTokenJSON (c.Db.SaveUser u).1) ∧
    (∀ p, Effect.Encrypt p ∈ (ChangePasswordHandler c rt r).effects →
      ∃ u, Effect.SaveUser u ∈ (ChangePasswordHandler c rt r).effects ∧
        0 < (c.Db.SaveUser u).1 ∧ p = c.Crypto.GetTokenJSON (c.Db.SaveUser u).1) := by
  refine ⟨?_, ?_, ?_, ?_, ?_, ?_⟩
  · intro h
    unfold GetAuthTokenHandler at h ⊢
    simp only [] at h ⊢
    split_ifs at h ⊢ with h1 h2 h3 h4
    all_goals simp only [reply, GetJSONAnswer, Option.some.injEq] at h
    all_goals subst h
    all_goals try simp at hsucc
    exact ⟨_, _, by simp [reply], h4, rfl⟩
  · intro h
    unfold RegistrationHandler at h ⊢
    simp only [] at h ⊢
    split_ifs at h ⊢ with h1 h2 h3 h4 h5 h6
    all_goals try split at h
    all_goals simp only [reply, GetJSONAnswer, Option.some.injEq] at h
    all_goals subst h
    all_goals try simp at hsucc
    exact ⟨_, by simp [reply], h6, rfl⟩
  · intro h
    unfold ChangePasswordHandler at h ⊢
    simp only [] at h ⊢
    split_ifs at h ⊢ with h1 h2 h3 h4
    · simp only [reply, GetJSONAnswer, Option.some.injEq] at h; subst h; simp at hsucc
    · simp only [reply, GetJSONAnswer, Option.some.injEq] at h; subst h; simp at hsucc
    · simp only [reply, GetJSONAnswer, Option.some.injEq] at h; subst h; simp at hsucc
    · simp only [reply, GetJSONAnswer, Option.some.injEq] at h; subst h; simp at hsucc
    · exact changePasswordForToken_success c rt _ a hsucc h
  · intro p h
    unfold GetAuthTokenHandler at h ⊢
    simp only [] at h ⊢
    split_ifs at h ⊢ with h1 h2 h3 h4
    all_goals simp [reply] at h
    subst h
    exact ⟨_, _, by simp [reply], h4, rfl⟩
  · intro p h
    unfold RegistrationHandler at h ⊢
    simp only [] at h ⊢
    split_ifs at h ⊢ with h1 h2 h3 h4 h5 h6
    all_goals try split at h
    all_goals simp [reply] at h
    subst h
    exact ⟨_, by simp [reply], h6, rfl⟩
  · intro p h
    unfold ChangePasswordHandler at h ⊢
    simp only [] at h ⊢
    split_ifs at h ⊢ with h1 h2 h3 h4
    · simp [reply] at h
    · simp [reply] at h
    · simp [reply] at h
    · simp [reply] at h
    · exact changePasswordForToken_encrypt c rt _ p h

/-- Witness of C9: a login that storage answers with user 7 gets the token of user 7. -/
theorem auth_token_user_id_positive_witness :
    (GetJSONAnswer "\x7b\"id\":7\x7d" true "" "").success = true ∧
    ∃ login hash,
      Effect.GetUserByAuth login hash ∈ (GetAuthTokenHandler
        ⟨fixedDb (storedUser 7 "a@b.com", true, none) (7, "", none), plainCrypto 600, okMail⟩
        (sampleRuntime 1000) (mkRequest "POST" "a@b.com" "" "")).effects ∧
      0 < ((fixedDb (storedUser 7 "a@b.com", true, none) (7, "", none)).GetUserByAuth
        login hash).1.UserID ∧
      (GetJSONAnswer "\x7b\"id\":7\x7d" true "" "").data =
        ((plainCrypto 600).EncryptTextAES256Base64 ((plainCrypto 600).GetTokenJSON
          ((fixedDb (storedUser 7 "a@b.com", true, none) (7, "", none)).GetUserByAuth
            login hash).1.UserID)).1 :=
  ⟨rfl, (auth_token_user_id_positive
    ⟨fixedDb (storedUser 7 "a@b.com", true, none) (7, "", none), plainCrypto 600, okMail⟩
    (sampleRuntime 1000) (mkRequest "POST" "a@b.com" "" "")
    (GetJSONAnswer "\x7b\"id\":7\x7d" true "" "") rfl).1 (by decide)⟩

/-- C10, the code: `ChangePasswordHandler` drops the second result of `GetUserByEmail`,
so the outcome is the same whatever `found` the store reports; and at the failing input,
a token that passes the handler's expiry comparison and a store that reports the email as
not found without an error, the handler generates a password, calls `SaveUser` with the
record the lookup returned, mails the password and answers `success = true`. -/
theorem ChangePasswordHandler_ignores_not_found :
    (∀ (c : Controllers) (rt : Runtime) (r : Request) (found : Bool),
      ChangePasswordHandler
          { c with Db := { c.Db with GetUserByEmail := fun e =>
            ((c.Db.GetUserByEmail e).1, found, (c.Db.GetUserByEmail e).2.2) } } rt r =
        ChangePasswordHandler c rt r) ∧
    (fixedDb (storedUser 0 "", false, none) (5, "", none)).GetUserByEmail "ghost@b.com" =
      (storedUser 0 "", false, none) ∧
    ChangePasswordHandler
        ⟨fixedDb (storedUser 0 "", false, none) (5, "", none), plainCrypto 600, okMail⟩
        (sampleRuntime 1000)
        (mkRequest "GET" "" "\x7b\"email\":\"ghost@b.com\", \"ttl\":600\x7d" "") =
      reply
        [.GetUserByEmail "ghost@b.com", .GetNewPassword,
          .SaveUser { UserID := 0, Email := "", PswdHashB := [112, 119, 49] },
          .SendEmail "" "Subject: Ваш пароль\\n pw1",
          .Encrypt "\x7b\"id\":5\x7d"]
        (GetJSONAnswer "\x7b\"id\":5\x7d" true "" "") := by
  refine ⟨fun c rt r found => rfl, by decide, by decide⟩

/-- A string without quote, backslash and control characters is read up to the closing
quote unchanged. -/
theorem parseStringBody_plain (s rest : List Char) :
    ∀ fuel, s.length < fuel →
      (∀ ch ∈ s, 32 ≤ ch.toNat ∧ ch.toNat ≠ 34 ∧ ch.toNat ≠ 92) →
      parseStringBody fuel (s ++ Char.ofNat 34 :: rest) = .ok (s, rest) := by
  induction s with
  | nil =>
    intro fuel hfuel _
    cases fuel with
    | zero => simp at hfuel
    | succ f =>
      have h34 : (Char.ofNat 34).toNat = 34 := by decide
      simp [parseStringBody, h34]
  | cons c s ih =>
    intro fuel hfuel hsafe
    cases fuel with
    | zero => simp at hfuel
    | succ f =>
      have hc := hsafe c (List.mem_cons_self _ _)
      have hrec := ih f (by simpa using hfuel) (fun ch hch => hsafe ch (List.mem_cons_of_mem _ hch))
      have h1 : ¬ c.toNat = 34 := hc.2.1
      have h2 : ¬ c.toNat < 32 := by omega
      have h3 : ¬ c.toNat = 92 := hc.2.2
      simp [parseStringBody, h1, h2, h3, hrec]

/-- The code of the character of a decimal digit. -/
theorem digitChar_toNat (d : Nat) (h : d < 10) : (digitChar d).toNat = 48 + d := by
  unfold digitChar
  exact toNat_ofNat_small _ (by omega)

/-- The character of a decimal digit is a digit. -/
theorem isDigit_digitChar (d : Nat) (h : d < 10) : isDigit (digitChar d) = true := by
  simp [isDigit, digitChar_toNat d h]
  omega

/-- Appending one digit multiplies the value by ten and adds the digit. -/
theorem digitsValue_append (l : List Char) (c : Char) :
    digitsValue (l ++ [c]) = 10 * digitsValue l + (c.toNat - 48) := by
  simp [digitsValue, List.foldl_append]

/-- With enough fuel the digits of `n` are a non-empty run of digit characters of value
`n` that starts with `0` only when `n = 0`. -/
theorem formatNatFuel_spec (fuel : Nat) :
    ∀ n, n < fuel →
      (∀ c ∈ formatNatFuel fuel n, isDigit c = true) ∧
      digitsValue (formatNatFuel fuel n) = n ∧
      ∃ c tl, formatNatFuel fuel n = c :: tl ∧ (c.toNat = 48 → n = 0 ∧ tl = []) := by
  induction fuel with
  | zero => intro n h; omega
  | succ f ih =>
    intro n hn
    unfold formatNatFuel
    by_cases h10 : n < 10
    · rw [if_pos h10]
      refine ⟨?_, ?_, digitChar n, [], rfl, ?_⟩
      · intro c hc
        simp at hc
        rw [hc]; exact isDigit_digitChar n h10
      · simp [digitsValue, digitChar_toNat n h10]
      · intro h0
        rw [digitChar_toNat n h10] at h0
        exact ⟨by omega, rfl⟩
    · rw [if_neg h10]
      obtain ⟨hd, hv, c, tl, hct, hz⟩ := ih (n / 10) (by omega)
      have hm : n % 10 < 10 := Nat.mod_lt _ (by omega)
      refine ⟨?_, ?_, c, tl ++ [digitChar (n % 10)], by rw [hct]; rfl, ?_⟩
      · intro ch hch
        rw [List.mem_append] at hch
        rcases hch with hch | hch
        · exact hd ch hch
        · simp at hch
          rw [hch]; exact isDigit_digitChar _ hm
      · rw [digitsValue_append, hv, digitChar_toNat _ hm]
        omega
      · intro h0
        have := (hz h0).1
        omega

/-- Splitting off the leading digits of a digit run followed by a non-digit. -/
theorem span_isDigit_run (ds : List Char) (x : Char) (rest : List Char)
    (hds : ∀ c ∈ ds, isDigit c = true) (hx : isDigit x = false) :
    (ds ++ x :: rest).span isDigit = (ds, x :: rest) := by
  rw [List.span_eq_take_drop]
  induction ds with
  | nil => simp [List.takeWhile, List.dropWhile, hx]
  | cons c ds ih =>
    have hc := hds c (List.mem_cons_self _ _)
    have := ih (fun ch hch => hds ch (List.mem_cons_of_mem _ hch))
    simp only [Prod.mk.injEq] at this
    simp [List.takeWhile, List.dropWhile, hc, this.1, this.2]

/-- A digit run without a superfluous leading zero, followed by a closing brace, is read
as a JSON number up to the brace. -/
theorem parseNumber_run (c : Char) (tl rest : List Char)
    (hds : ∀ ch ∈ c :: tl, isDigit ch = true) (hz : c.toNat = 48 → tl = []) :
    parseNumber (c :: tl ++ Char.ofNat 125 :: rest) = some (c :: tl, Char.ofNat 125 :: rest) ∧
    parseNumber (Char.ofNat 45 :: (c :: tl ++ Char.ofNat 125 :: rest)) =
      some (Char.ofNat 45 :: c :: tl, Char.ofNat 125 :: rest) := by
  have hc : isDigit c = true := hds c (List.mem_cons_self _ _)
  have hc' : 48 ≤ c.toNat ∧ c.toNat ≤ 57 := by simpa [isDigit] using hc
  have h125 : (Char.ofNat 125).toNat = 125 := by decide
  have h45 : (Char.ofNat 45).toNat = 45 := by decide
  have hx : isDigit (Char.ofNat 125) = false := by decide
  have hint : parseIntPart (c :: tl ++ Char.ofNat 125 :: rest) =
      some (c :: tl, Char.ofNat 125 :: rest) := by
    by_cases h0 : c.toNat = 48
    · have := hz h0
      subst this
      simp [parseIntPart, h0]
    · have hsp := span_isDigit_run (c :: tl) (Char.ofNat 125) rest hds hx
      simp only [List.cons_append] at hsp ⊢
      simp only [parseIntPart, h0, hc, ↓reduceIte, hsp]
  have hfrac : parseFrac (Char.ofNat 125 :: rest) = some ([], Char.ofNat 125 :: rest) := by
    simp [parseFrac, h125]
  have hexp : parseExp (Char.ofNat 125 :: rest) = some ([], Char.ofNat 125 :: rest) := by
    simp [parseExp, h125]
  have hne : ¬ c.toNat = 45 := by omega
  constructor
  · simp only [List.cons_append] at hint ⊢
    simp [parseNumber, hne, hint, hfrac, hexp]
  · simp only [List.cons_append] at hint ⊢
    simp [parseNumber, h45, hint, hfrac, hexp]

/-- The shape of `%d`: an optional minus sign and a digit run of the absolute value. -/
theorem formatInt_shape (x : Int) :
    ∃ c tl, (∀ ch ∈ c :: tl, isDigit ch = true) ∧ (c.toNat = 48 → tl = []) ∧
      digitsValue (c :: tl) = x.natAbs ∧
      formatInt x = if x < 0 then Char.ofNat 45 :: c :: tl else c :: tl := by
  obtain ⟨hd, hv, c, tl, hct, hz⟩ := formatNatFuel_spec (x.natAbs + 1) x.natAbs (by omega)
  refine ⟨c, tl, ?_, fun h => (hz h).2, ?_, ?_⟩
  · rw [← hct]; exact hd
  · rw [← hct]; exact hv
  · unfold formatInt formatNat
    rw [hct]

/-- Reading back what `%d` wrote gives the number, for every `int64`. -/
theorem parseInt64_formatInt (x : Int) (hx : isInt64 x) : parseInt64 (formatInt x) = some x := by
  obtain ⟨c, tl, hd, _, hv, hf⟩ := formatInt_shape x
  have hc : isDigit c = true := hd c (List.mem_cons_self _ _)
  have hc' : 48 ≤ c.toNat ∧ c.toNat ≤ 57 := by simpa [isDigit] using hc
  have hall : (c :: tl).all isDigit = true := by
    rw [List.all_eq_true]; exact hd
  have h45 : (Char.ofNat 45).toNat = 45 := by decide
  rw [hf]
  by_cases hneg : x < 0
  · have hval : -(↑(digitsValue (c :: tl)) : Int) = x := by rw [hv]; omega
    simp only [hneg, ↓reduceIte, parseInt64, h45, hall, ne_eq, reduceCtorEq, not_false_eq_true,
      and_self, hval, hx]
  · have hne : ¬ c.toNat = 45 := by omega
    have hval : (↑(digitsValue (c :: tl)) : Int) = x := by rw [hv]; omega
    simp only [hneg, ↓reduceIte, parseInt64, hne, hall, ne_eq, reduceCtorEq, not_false_eq_true,
      and_self, hval, hx]

/-- What `%d` wrote, followed by a closing brace, is read as one JSON number. -/
theorem parseValue_formatInt (f depth : Nat) (x : Int) (rest : List Char) :
    parseValue (f + 1) depth (formatInt x ++ Char.ofNat 125 :: rest) =
      .ok (.number (formatInt x), Char.ofNat 125 :: rest) := by
  obtain ⟨c, tl, hd, hz, _, hf⟩ := formatInt_shape x
  have hc : isDigit c = true := hd c (List.mem_cons_self _ _)
  have hc' : 48 ≤ c.toNat ∧ c.toNat ≤ 57 := by simpa [isDigit] using hc
  have h45 : (Char.ofNat 45).toNat = 45 := by decide
  obtain ⟨hpos, hneg⟩ := parseNumber_run c tl rest hd hz
  rw [hf]
  by_cases hlt : x < 0
  · simp only [hlt, ↓reduceIte, List.cons_append]
    simp only [List.cons_append] at hneg
    rw [parseValue]
    simp [h45, hneg]
  · simp only [hlt, ↓reduceIte, List.cons_append]
    simp only [List.cons_append] at hpos
    rw [parseValue]
    have e1 : ¬ c.toNat = 123 := by omega
    have e2 : ¬ c.toNat = 91 := by omega
    have e3 : ¬ c.toNat = 34 := by omega
    have e4 : ¬ c.toNat = 116 := by omega
    have e5 : ¬ c.toNat = 102 := by omega
    have e6 : ¬ c.toNat = 110 := by omega
    simp [e1, e2, e3, e4, e5, e6, hpos]

/-- The characters of the formatted reset payload, piece by piece. -/
theorem sprintfEmailTTL_data (email : String) (ttl : Int) :
    (sprintfEmailTTL email ttl).data =
      Char.ofNat 123 :: Char.ofNat 34 :: ("email".data ++ Char.ofNat 34 :: Char.ofNat 58 ::
        Char.ofNat 34 :: (email.data ++ Char.ofNat 34 :: Char.ofNat 44 :: Char.ofNat 32 ::
          Char.ofNat 34 :: ("ttl".data ++ Char.ofNat 34 :: Char.ofNat 58 ::
            (formatInt ttl ++ [Char.ofNat 125])))) := by
  simp [sprintfEmailTTL, String.data_append]

/-- Nothing is skipped in front of a character that is not white space. -/
theorem skipSpace_cons (c : Char) (cs : List Char) (h : isSpace c = false) :
    skipSpace (c :: cs) = c :: cs := by
  simp [skipSpace, h]

/-- Nothing is skipped in front of a formatted integer. -/
theorem skipSpace_formatInt (x : Int) (rest : List Char) :
    skipSpace (formatInt x ++ rest) = formatInt x ++ rest := by
  obtain ⟨c, tl, hd, _, _, hf⟩ := formatInt_shape x
  have hc : isDigit c = true := hd c (List.mem_cons_self _ _)
  have hc' : 48 ≤ c.toNat ∧ c.toNat ≤ 57 := by simpa [isDigit] using hc
  have h45 : (Char.ofNat 45).toNat = 45 := by decide
  rw [hf]
  by_cases hlt : x < 0
  · simp [hlt, skipSpace, isSpace, h45]
  · have e1 : ¬ c.toNat = 32 := by omega
    have e2 : ¬ c.toNat = 9 := by omega
    have e3 : ¬ c.toNat = 13 := by omega
    have e4 : ¬ c.toNat = 10 := by omega
    simp [hlt, skipSpace, isSpace, e1, e2, e3, e4]

/-- The member `"ttl":<number>` and the closing brace. -/
theorem parseMembers_ttl (f depth : Nat) (x : Int) :
    parseMembers (f + 2) depth (Char.ofNat 34 :: ("ttl".data ++ Char.ofNat 34 :: Char.ofNat 58 ::
        (formatInt x ++ [Char.ofNat 125]))) =
      .ok ([("ttl".data, .number (formatInt x))], []) := by
  have hkey := parseStringBody_plain "ttl".data (Char.ofNat 58 :: (formatInt x ++ [Char.ofNat 125]))
    ("ttl".data ++ Char.ofNat 34 :: Char.ofNat 58 :: (formatInt x ++ [Char.ofNat 125])).length
    (by simp) (by decide)
  have hnum := parseValue_formatInt f depth x []
  have hsk := skipSpace_formatInt x [Char.ofNat 125]
  have h34 : (Char.ofNat 34).toNat = 34 := by decide
  have h58 : (Char.ofNat 58).toNat = 58 := by decide
  have h125 : (Char.ofNat 125).toNat = 125 := by decide
  have s58 := skipSpace_cons (Char.ofNat 58) (formatInt x ++ [Char.ofNat 125]) (by decide)
  have s125 := skipSpace_cons (Char.ofNat 125) [] (by decide)
  rw [parseMembers]
  simp only [h34, ↓reduceIte, hkey, s58, h58, hsk, hnum, s125, h125]

/-- The two members that `Sprintf` writes, from the first key to the closing brace. -/
theorem parseMembers_email_ttl (f depth : Nat) (email : List Char) (x : Int)
    (hsafe : ∀ ch ∈ email, 32 ≤ ch.toNat ∧ ch.toNat ≠ 34 ∧ ch.toNat ≠ 92) :
    parseMembers (f + 3) depth (Char.ofNat 34 :: ("email".data ++ Char.ofNat 34 :: Char.ofNat 58 ::
        Char.ofNat 34 :: (email ++ Char.ofNat 34 :: Char.ofNat 44 :: Char.ofNat 32 ::
          Char.ofNat 34 :: ("ttl".data ++ Char.ofNat 34 :: Char.ofNat 58 ::
            (formatInt x ++ [Char.ofNat 125]))))) =
      .ok ([("email".data, .string email), ("ttl".data, .number (formatInt x))], []) := by
  generalize hT : Char.ofNat 34 :: ("ttl".data ++ Char.ofNat 34 :: Char.ofNat 58 ::
    (formatInt x ++ [Char.ofNat 125])) = T
  have httl : parseMembers (f + 2) depth T =
      .ok ([("ttl".data, .number (formatInt x))], []) := by
    rw [← hT]; exact parseMembers_ttl f depth x
  have hkey := parseStringBody_plain "email".data
    (Char.ofNat 58 :: Char.ofNat 34 :: (email ++ Char.ofNat 34 :: Char.ofNat 44 ::
      Char.ofNat 32 :: T))
    ("email".data ++ Char.ofNat 34 :: Char.ofNat 58 :: Char.ofNat 34 :: (email ++
      Char.ofNat 34 :: Char.ofNat 44 :: Char.ofNat 32 :: T)).length
    (by simp) (by decide)
  have hval := parseStringBody_plain email (Char.ofNat 44 :: Char.ofNat 32 :: T)
    (email ++ Char.ofNat 34 :: Char.ofNat 44 :: Char.ofNat 32 :: T).length
    (by simp) hsafe
  have h34 : (Char.ofNat 34).toNat = 34 := by decide
  have h58 : (Char.ofNat 58).toNat = 58 := by decide
  have h44 : (Char.ofNat 44).toNat = 44 := by decide
  have s58 := skipSpace_cons (Char.ofNat 58) (Char.ofNat 34 :: (email ++ Char.ofNat 34 ::
    Char.ofNat 44 :: Char.ofNat 32 :: T)) (by decide)
  have s34 := skipSpace_cons (Char.ofNat 34) (email ++ Char.ofNat 34 ::
    Char.ofNat 44 :: Char.ofNat 32 :: T) (by decide)
  have s44 := skipSpace_cons (Char.ofNat 44) (Char.ofNat 32 :: T) (by decide)
  have s32 : skipSpace (Char.ofNat 32 :: T) = T := by
    rw [← hT]
    simp only [skipSpace]
    rw [if_pos (by decide), if_neg (by decide)]
  have hstr : parseValue (f + 2) depth (Char.ofNat 34 :: (email ++ Char.ofNat 34 ::
      Char.ofNat 44 :: Char.ofNat 32 :: T)) =
      .ok (.string email, Char.ofNat 44 :: Char.ofNat 32 :: T) := by
    rw [parseValue]
    simp only [h34, ↓reduceIte, hval]
    simp
  rw [parseMembers]
  simp only [h34, ↓reduceIte, hkey, s58, h58, s34, hstr, s44, h44, s32, httl]
  simp

/-- The text that `Sprintf` writes is one JSON object with the two members. -/
theorem parseDocument_sprintf (email : String) (x : Int)
    (hsafe : ∀ ch ∈ email.data, 32 ≤ ch.toNat ∧ ch.toNat ≠ 34 ∧ ch.toNat ≠ 92) :
    parseDocument (sprintfEmailTTL email x).data =
      .ok (.object [("email".data, .string email.data), ("ttl".data, .number (formatInt x))]) := by
  unfold parseDocument
  rw [sprintfEmailTTL_data]
  generalize hR : Char.ofNat 34 :: ("email".data ++ Char.ofNat 34 :: Char.ofNat 58 ::
      Char.ofNat 34 :: (email.data ++ Char.ofNat 34 :: Char.ofNat 44 :: Char.ofNat 32 ::
        Char.ofNat 34 :: ("ttl".data ++ Char.ofNat 34 :: Char.ofNat 58 ::
          (formatInt x ++ [Char.ofNat 125])))) = R
  obtain ⟨F, hF⟩ : ∃ F, 2 * (Char.ofNat 123 :: R).length + 2 = F + 4 :=
    ⟨2 * R.length, by simp; omega⟩
  have hmem : parseMembers (F + 3) 1 R =
      .ok ([("email".data, .string email.data), ("ttl".data, .number (formatInt x))], []) := by
    rw [← hR]; exact parseMembers_email_ttl F 1 email.data x hsafe
  have s123 := skipSpace_cons (Char.ofNat 123) R (by decide)
  have sR : skipSpace R = R := by
    rw [← hR]; exact skipSpace_cons _ _ (by decide)
  have h123 : (Char.ofNat 123).toNat = 123 := by decide
  have h34 : ¬ (Char.ofNat 34).toNat = 125 := by decide
  have hdepth : ¬ maxNestingDepth ≤ 0 := by decide
  rw [hF, s123, parseValue]
  simp only [h123, ↓reduceIte, sR, hdepth, Nat.zero_add]
  rw [← hR] at hmem ⊢
  simp only [h34, ↓reduceIte, hmem, skipSpace]

/-- C6, amended: for every email without a double quote, a backslash or a control
character and every `int64` expiry, the text that `SendRestorePasswordEmailHandler`
formats is parsed by `json.Unmarshal` into the token with that email and that expiry,
without error; so a GET request whose token decrypts to that text is handled by
`ChangePasswordHandler` as this token. -/
theorem reset_payload_round_trip (email : String) (ttl : Int)
    (hsafe : ∀ ch ∈ email.data, 32 ≤ ch.toNat ∧ ch.toNat ≠ 34 ∧ ch.toNat ≠ 92)
    (hint : isInt64 ttl) :
    Unmarshal (sprintfEmailTTL email ttl) = ({ Email := email, TTL := ttl }, none) ∧
    ∀ (c : Controllers) (rt : Runtime) (r : Request), r.Method = "GET" →
      r.TokenVar.length ≠ 0 →
      c.Crypto.DecryptTextAES256 r.TokenVar = (sprintfEmailTTL email ttl, none) →
      ChangePasswordHandler c rt r =
        changePasswordForToken c rt { Email := email, TTL := ttl } := by
  have hun : Unmarshal (sprintfEmailTTL email ttl) = ({ Email := email, TTL := ttl }, none) := by
    have k1 : keyIs "email" "email".data = true := by decide
    have k2 : keyIs "email" "ttl".data = false := by decide
    have k3 : keyIs "ttl" "ttl".data = true := by decide
    unfold Unmarshal
    rw [parseDocument_sprintf email ttl hsafe]
    simp only [List.foldl, setField, k1, k2, k3, ↓reduceIte, parseInt64_formatInt ttl hint,
      Bool.false_eq_true]
  refine ⟨hun, ?_⟩
  intro c rt r hget htoken hdec
  unfold ChangePasswordHandler
  simp only []
  rw [if_neg (by simp [hget]), if_neg htoken, hdec, hun]
  simp

/-- Witness of the amended C6: the email `a@b.com` with expiry 1600. -/
theorem reset_payload_round_trip_witness :
    ((∀ ch ∈ "a@b.com".data, 32 ≤ ch.toNat ∧ ch.toNat ≠ 34 ∧ ch.toNat ≠ 92) ∧ isInt64 1600) ∧
    Unmarshal (sprintfEmailTTL "a@b.com" 1600) = ({ Email := "a@b.com", TTL := 1600 }, none) :=
  ⟨⟨by decide, by decide⟩, (reset_payload_round_trip "a@b.com" 1600 (by decide) (by decide)).1⟩

/-- C6, as stated, fails: `%s` does not escape.  For an email with a double quote the
formatted text is not JSON and `json.Unmarshal` returns a syntax error; for an email that
closes the string and adds a member of its own the text parses, into a token with another
email. -/
theorem reset_payload_round_trip_counterexample :
    Unmarshal (sprintfEmailTTL "a\"@b.com" 600) = ({ Email := "", TTL := 0 }, some .syntaxError) ∧
    Unmarshal (sprintfEmailTTL "x\", \"email\":\"v@b.com" 600) =
      ({ Email := "v@b.com", TTL := 600 }, none) := by
  decide

/-! ### The recursion bound of the JSON model is never reached -/

theorem skipSpace_length (cs : List Char) : (skipSpace cs).length ≤ cs.length := by
  induction cs with
  | nil => simp [skipSpace]
  | cons c cs ih =>
    unfold skipSpace
    split_ifs
    · simp; omega
    · simp

/-- Four hexadecimal digits are four characters. -/
theorem parseHex4_length (cs : List Char) (v : Nat) (r : List Char)
    (h : parseHex4 cs = some (v, r)) : r.length + 4 = cs.length := by
  unfold parseHex4 at h
  split at h
  · split at h
    · simp at h
      rw [← h.2]
      simp
    · simp at h
  · simp at h

/-- A string that was read took at least its closing quote. -/
theorem parseStringBody_length (fuel : Nat) :
    ∀ cs s r, parseStringBody fuel cs = .ok (s, r) → r.length < cs.length := by
  induction fuel with
  | zero =>
    intro cs s r h
    cases cs <;> simp [parseStringBody] at h
  | succ f ih =>
    intro cs s r h
    cases cs with
    | nil => simp [parseStringBody] at h
    | cons c rest =>
      simp only [parseStringBody] at h
      split_ifs at h with h1 h2 h3
      · simp at h
        rw [← h.2]
        simp
      · split at h
        · simp at h
        · rename_i e rest1
          split_ifs at h with h4
          · split at h
            · simp at h
            · rename_i v rest2 hhex
              have hl := parseHex4_length _ _ _ hhex
              split_ifs at h with h5
              · split at h
                · rename_i b u rest3
                  split_ifs at h with h6
                  · split at h
                    · rename_i w rest4 hhex2
                      have hl2 := parseHex4_length _ _ _ hhex2
                      split_ifs at h with h7
                      · split at h
                        · rename_i s' r' hrec
                          have := ih _ _ _ hrec
                          simp at h
                          rw [← h.2]
                          simp at hl hl2 ⊢
                          try simp only [List.length_cons] at *
                          omega
                        · simp at h
                      · split at h
                        · rename_i s' r' hrec
                          have := ih _ _ _ hrec
                          simp at h
                          rw [← h.2]
                          simp at hl ⊢
                          try simp only [List.length_cons] at *
                          omega
                        · simp at h
                    · simp at h
                  · split at h
                    · rename_i s' r' hrec
                      have := ih _ _ _ hrec
                      simp at h
                      rw [← h.2]
                      simp at hl ⊢
                      try simp only [List.length_cons] at *
                      omega
                    · simp at h
                · split at h
                  · rename_i s' r' hrec
                    have := ih _ _ _ hrec
                    simp at h
                    rw [← h.2]
                    simp at hl ⊢
                    try simp only [List.length_cons] at *
                    omega
                  · simp at h
              · split at h
                · rename_i s' r' hrec
                  have := ih _ _ _ hrec
                  simp at h
                  rw [← h.2]
                  simp at hl ⊢
                  try simp only [List.length_cons] at *
                  omega
                · simp at h
          · split at h
            · simp at h
            · split at h
              · rename_i s' r' hrec
                have := ih _ _ _ hrec
                simp at h
                rw [← h.2]
                simp
                try simp only [List.length_cons] at *
                omega
              · simp at h
      · split at h
        · rename_i s' r' hrec
          have := ih _ _ _ hrec
          simp at h
          rw [← h.2]
          simp
          try simp only [List.length_cons] at *
          omega
        · simp at h

/-- What is left after a run is no longer than the text. -/
theorem span_snd_length (p : Char → Bool) (cs : List Char) :
    (cs.span p).2.length ≤ cs.length := by
  rw [List.span_eq_take_drop]
  exact (List.dropWhile_sublist p).length_le

/-- What follows a digit run is no longer than the text. -/
theorem parseDigits1_length (cs ds r : List Char) (h : parseDigits1 cs = some (ds, r)) :
    r.length ≤ cs.length := by
  unfold parseDigits1 at h
  have hs := span_snd_length isDigit cs
  split at h
  · simp at h
  · rename_i ds' rest heq
    simp at h
    rw [heq] at hs
    rw [← h.2]
    exact hs

/-- The integer part of a number takes at least one character. -/
theorem parseIntPart_length (cs ip r : List Char) (h : parseIntPart cs = some (ip, r)) :
    r.length < cs.length := by
  cases cs with
  | nil => simp [parseIntPart] at h
  | cons c rest =>
    simp only [parseIntPart] at h
    split_ifs at h with h1 h2
    · simp at h
      rw [← h.2]
      simp
    · have hs := span_snd_length isDigit (c :: rest)
      simp only [Option.some.injEq] at h
      rw [h] at hs
      have hsp : (c :: rest).span isDigit = (c :: (rest.span isDigit).1, (rest.span isDigit).2) := by
        simp [List.span_eq_take_drop, List.takeWhile, List.dropWhile, h2]
      rw [hsp] at h
      simp only [Prod.mk.injEq] at h
      have hs2 := span_snd_length isDigit rest
      rw [h.2] at hs2
      simp only [List.length_cons]
      omega

/-- What follows the fraction is no longer than the text. -/
theorem parseFrac_length (cs fp r : List Char) (h : parseFrac cs = some (fp, r)) :
    r.length ≤ cs.length := by
  cases cs with
  | nil =>
    simp [parseFrac] at h
    rw [← h.2]
  | cons c rest =>
    simp only [parseFrac] at h
    split_ifs at h with h1
    · split at h
      · rename_i ds r' heq
        have := parseDigits1_length _ _ _ heq
        simp at h
        rw [← h.2]
        simp only [List.length_cons]
        omega
      · simp at h
    · simp at h
      rw [← h.2]

/-- What follows the exponent is no longer than the text. -/
theorem parseExp_length (cs ep r : List Char) (h : parseExp cs = some (ep, r)) :
    r.length ≤ cs.length := by
  cases cs with
  | nil =>
    simp [parseExp] at h
    rw [← h.2]
  | cons c rest =>
    simp only [parseExp] at h
    split_ifs at h with h1
    · split at h
      · rename_i s rest1
        split_ifs at h with h2
        · split at h
          · rename_i ds r' heq
            have := parseDigits1_length _ _ _ heq
            simp at h
            rw [← h.2]
            simp only [List.length_cons]
            omega
          · simp at h
        · split at h
          · rename_i ds r' heq
            have := parseDigits1_length _ _ _ heq
            simp at h
            rw [← h.2]
            simp only [List.length_cons] at this ⊢
            omega
          · simp at h
      · simp at h
    · simp at h
      rw [← h.2]

/-- A number that was read took at least one character. -/
theorem parseNumber_length (cs lit r : List Char) (h : parseNumber cs = some (lit, r)) :
    r.length < cs.length := by
  unfold parseNumber at h
  simp only [] at h
  split at h
  · simp at h
  · rename_i ip cs2 hint
    split at h
    · simp at h
    · rename_i fp cs3 hfrac
      split at h
      · simp at h
      · rename_i ep cs4 hexp
        have h1 := parseIntPart_length _ _ _ hint
        have h2 := parseFrac_length _ _ _ hfrac
        have h3 := parseExp_length _ _ _ hexp
        simp at h
        rw [← h.2]
        have h4 : (match cs with
            | c :: rest => if c.toNat = 45 then ([c], rest) else ([], c :: rest)
            | [] => (([] : List Char), ([] : List Char))).2.length ≤ cs.length := by
          cases cs with
          | nil => simp
          | cons c rest =>
            simp only
            split_ifs <;> simp
        omega

/-- What follows a stripped word is no longer than the text. -/
theorem stripWord_length (w cs r : List Char) (h : stripWord w cs = some r) :
    r.length ≤ cs.length := by
  induction w generalizing cs with
  | nil =>
    simp [stripWord] at h
    rw [h]
  | cons x xs ih =>
    cases cs with
    | nil => simp [stripWord] at h
    | cons c rest =>
      simp only [stripWord] at h
      split_ifs at h
      · have := ih _ h
        simp only [List.length_cons]
        omega

/-- With fuel for every character, reading a string never runs out of fuel. -/
theorem parseStringBody_fuel (fuel : Nat) :
    ∀ cs, cs.length ≤ fuel → parseStringBody fuel cs ≠ .error .fuel := by
  induction fuel with
  | zero =>
    intro cs hlen h
    cases cs with
    | nil => simp [parseStringBody] at h
    | cons c rest => simp at hlen
  | succ f ih =>
    intro cs hlen h
    cases cs with
    | nil => simp [parseStringBody] at h
    | cons c rest =>
      simp only [parseStringBody] at h
      simp only [List.length_cons] at hlen
      split_ifs at h with h1 h2 h3
      · simp at h
      · split at h
        · simp at h
        · rename_i e rest1
          split_ifs at h with h4
          · split at h
            · simp at h
            · rename_i v rest2 hhex
              have hl := parseHex4_length _ _ _ hhex
              split_ifs at h with h5
              · split at h
                · rename_i b u rest3
                  split_ifs at h with h6
                  · split at h
                    · rename_i w rest4 hhex2
                      have hl2 := parseHex4_length _ _ _ hhex2
                      split_ifs at h with h7
                      · split at h
                        · simp at h
                        · rename_i err hrec
                          simp at h
                          subst h
                          refine ih _ ?_ hrec
                          try simp only [List.length_cons] at *
                          omega
                      · split at h
                        · simp at h
                        · rename_i err hrec
                          simp at h
                          subst h
                          refine ih _ ?_ hrec
                          try simp only [List.length_cons] at *
                          omega
                    · simp at h
                  · split at h
                    · simp at h
                    · rename_i err hrec
                      simp at h
                      subst h
                      refine ih _ ?_ hrec
                      try simp only [List.length_cons] at *
                      omega
                · split at h
                  · simp at h
                  · rename_i err hrec
                    simp at h
                    subst h
                    refine ih _ ?_ hrec
                    try simp only [List.length_cons] at *
                    omega
              · split at h
                · simp at h
                · rename_i err hrec
                  simp at h
                  subst h
                  refine ih _ ?_ hrec
                  try simp only [List.length_cons] at *
                  omega
          · split at h
            · simp at h
            · split at h
              · simp at h
              · rename_i err hrec
                simp at h
                subst h
                refine ih _ ?_ hrec
                try simp only [List.length_cons] at *
                omega
      · split at h
        · simp at h
        · rename_i err hrec
          simp at h
          subst h
          refine ih _ ?_ hrec
          omega

/-- Whatever the fuel, a successful parse consumes at least one character. -/
theorem parse_length (fuel : Nat) :
    (∀ depth cs v r, parseValue fuel depth cs = .ok (v, r) → r.length < cs.length) ∧
    (∀ depth cs ms r, parseMembers fuel depth cs = .ok (ms, r) → r.length < cs.length) ∧
    (∀ depth cs xs r, parseElements fuel depth cs = .ok (xs, r) → r.length < cs.length) := by
  induction fuel with
  | zero =>
    refine ⟨?_, ?_, ?_⟩
    · intro depth cs v r h; simp [parseValue] at h
    · intro depth cs ms r h; simp [parseMembers] at h
    · intro depth cs xs r h; simp [parseElements] at h
  | succ f ih =>
    obtain ⟨ihV, ihM, ihE⟩ := ih
    refine ⟨?_, ?_, ?_⟩
    · intro depth cs v r h
      cases cs with
      | nil => simp [parseValue] at h
      | cons c rest =>
        rw [parseValue] at h
        have hsk := skipSpace_length rest
        simp only [List.length_cons]
        by_cases h1 : c.toNat = 123
        · rw [if_pos h1] at h
          by_cases hd : maxNestingDepth ≤ depth
          · rw [if_pos hd] at h
            simp at h
          · rw [if_neg hd] at h
            split at h
            · simp at h
            · rename_i d rest1 heq
              rw [heq] at hsk
              simp only [List.length_cons] at hsk
              by_cases h9 : d.toNat = 125
              · rw [if_pos h9] at h
                simp at h
                rw [← h.2]
                omega
              · rw [if_neg h9] at h
                split at h
                · rename_i ms r' hrec
                  have := ihM _ _ _ _ hrec
                  simp only [List.length_cons] at this
                  simp at h
                  rw [← h.2]
                  omega
                · simp at h
        · rw [if_neg h1] at h
          by_cases h2 : c.toNat = 91
          · rw [if_pos h2] at h
            by_cases hd : maxNestingDepth ≤ depth
            · rw [if_pos hd] at h
              simp at h
            · rw [if_neg hd] at h
              split at h
              · simp at h
              · rename_i d rest1 heq
                rw [heq] at hsk
                simp only [List.length_cons] at hsk
                by_cases h9 : d.toNat = 93
                · rw [if_pos h9] at h
                  simp at h
                  rw [← h.2]
                  omega
                · rw [if_neg h9] at h
                  split at h
                  · rename_i xs r' hrec
                    have := ihE _ _ _ _ hrec
                    simp only [List.length_cons] at this
                    simp at h
                    rw [← h.2]
                    omega
                  · simp at h
          · rw [if_neg h2] at h
            by_cases h3 : c.toNat = 34
            · rw [if_pos h3] at h
              split at h
              · rename_i s r' hrec
                have := parseStringBody_length _ _ _ _ hrec
                simp at h
                rw [← h.2]
                omega
              · simp at h
            · rw [if_neg h3] at h
              by_cases h4 : c.toNat = 116
              · rw [if_pos h4] at h
                split at h
                · rename_i r' hrec
                  have := stripWord_length _ _ _ hrec
                  simp at h
                  rw [← h.2]
                  omega
                · simp at h
              · rw [if_neg h4] at h
                by_cases h5 : c.toNat = 102
                · rw [if_pos h5] at h
                  split at h
                  · rename_i r' hrec
                    have := stripWord_length _ _ _ hrec
                    simp at h
                    rw [← h.2]
                    omega
                  · simp at h
                · rw [if_neg h5] at h
                  by_cases h6 : c.toNat = 110
                  · rw [if_pos h6] at h
                    split at h
                    · rename_i r' hrec
                      have := stripWord_length _ _ _ hrec
                      simp at h
                      rw [← h.2]
                      omega
                    · simp at h
                  · rw [if_neg h6] at h
                    split at h
                    · rename_i lit r' hrec
                      have := parseNumber_length _ _ _ hrec
                      simp only [List.length_cons] at this
                      simp at h
                      rw [← h.2]
                      omega
                    · simp at h
    · intro depth cs ms r h
      cases cs with
      | nil => simp [parseMembers] at h
      | cons q rest =>
        rw [parseMembers] at h
        simp only [List.length_cons]
        by_cases h1 : q.toNat = 34
        · rw [if_pos h1] at h
          split at h
          · simp at h
          · rename_i key r1 hkey
            have hl1 := parseStringBody_length _ _ _ _ hkey
            have hsk1 := skipSpace_length r1
            split at h
            · simp at h
            · rename_i col r2 heq1
              rw [heq1] at hsk1
              simp only [List.length_cons] at hsk1
              have hsk2 := skipSpace_length r2
              by_cases h2 : col.toNat = 58
              · rw [if_pos h2] at h
                split at h
                · simp at h
                · rename_i v r3 hval
                  have hl3 := ihV _ _ _ _ hval
                  have hsk3 := skipSpace_length r3
                  split at h
                  · simp at h
                  · rename_i sep r4 heq3
                    rw [heq3] at hsk3
                    simp only [List.length_cons] at hsk3
                    have hsk4 := skipSpace_length r4
                    by_cases h3 : sep.toNat = 125
                    · rw [if_pos h3] at h
                      simp at h
                      rw [← h.2]
                      omega
                    · rw [if_neg h3] at h
                      by_cases h4 : sep.toNat = 44
                      · rw [if_pos h4] at h
                        split at h
                        · rename_i ms' r5 hrec
                          have := ihM _ _ _ _ hrec
                          simp at h
                          rw [← h.2]
                          omega
                        · simp at h
                      · rw [if_neg h4] at h
                        simp at h
              · rw [if_neg h2] at h
                simp at h
        · rw [if_neg h1] at h
          simp at h
    · intro depth cs xs r h
      rw [parseElements] at h
      split at h
      · simp at h
      · rename_i v r1 hval
        have hl1 := ihV _ _ _ _ hval
        have hsk1 := skipSpace_length r1
        split at h
        · simp at h
        · rename_i sep r2 heq1
          rw [heq1] at hsk1
          simp only [List.length_cons] at hsk1
          have hsk2 := skipSpace_length r2
          by_cases h1 : sep.toNat = 93
          · rw [if_pos h1] at h
            simp at h
            rw [← h.2]
            omega
          · rw [if_neg h1] at h
            by_cases h2 : sep.toNat = 44
            · rw [if_pos h2] at h
              split at h
              · rename_i xs' r3 hrec
                have := ihE _ _ _ _ hrec
                simp at h
                rw [← h.2]
                omega
              · simp at h
            · rw [if_neg h2] at h
              simp at h

/-- With two units of fuel for every character and one more (two more for the elements
of an array), parsing never runs out of fuel. -/
theorem parse_fuel (fuel : Nat) :
    (∀ depth cs, 2 * cs.length + 1 ≤ fuel → parseValue fuel depth cs ≠ .error .fuel) ∧
    (∀ depth cs, 2 * cs.length + 1 ≤ fuel → parseMembers fuel depth cs ≠ .error .fuel) ∧
    (∀ depth cs, 2 * cs.length + 2 ≤ fuel → parseElements fuel depth cs ≠ .error .fuel) := by
  induction fuel with
  | zero =>
    refine ⟨?_, ?_, ?_⟩
    · intro depth cs hlen; omega
    · intro depth cs hlen; omega
    · intro depth cs hlen; omega
  | succ f ih =>
    obtain ⟨ihV, ihM, ihE⟩ := ih
    obtain ⟨lenV, _, _⟩ := parse_length f
    refine ⟨?_, ?_, ?_⟩
    · intro depth cs hlen h
      cases cs with
      | nil => simp [parseValue] at h
      | cons c rest =>
        rw [parseValue] at h
        have hsk := skipSpace_length rest
        simp only [List.length_cons] at hlen
        by_cases h1 : c.toNat = 123
        · rw [if_pos h1] at h
          by_cases hd : maxNestingDepth ≤ depth
          · rw [if_pos hd] at h
            simp at h
          · rw [if_neg hd] at h
            split at h
            · simp at h
            · rename_i d rest1 heq
              rw [heq] at hsk
              by_cases h9 : d.toNat = 125
              · rw [if_pos h9] at h
                simp at h
              · rw [if_neg h9] at h
                split at h
                · simp at h
                · rename_i err hrec
                  simp at h
                  subst h
                  exact ihM _ _ (by omega) hrec
        · rw [if_neg h1] at h
          by_cases h2 : c.toNat = 91
          · rw [if_pos h2] at h
            by_cases hd : maxNestingDepth ≤ depth
            · rw [if_pos hd] at h
              simp at h
            · rw [if_neg hd] at h
              split at h
              · simp at h
              · rename_i d rest1 heq
                rw [heq] at hsk
                by_cases h9 : d.toNat = 93
                · rw [if_pos h9] at h
                  simp at h
                · rw [if_neg h9] at h
                  split at h
                  · simp at h
                  · rename_i err hrec
                    simp at h
                    subst h
                    exact ihE _ _ (by omega) hrec
          · rw [if_neg h2] at h
            by_cases h3 : c.toNat = 34
            · rw [if_pos h3] at h
              split at h
              · simp at h
              · rename_i err hrec
                simp at h
                subst h
                exact parseStringBody_fuel _ _ (Nat.le_refl _) hrec
            · rw [if_neg h3] at h
              by_cases h4 : c.toNat = 116
              · rw [if_pos h4] at h
                split at h <;> simp at h
              · rw [if_neg h4] at h
                by_cases h5 : c.toNat = 102
                · rw [if_pos h5] at h
                  split at h <;> simp at h
                · rw [if_neg h5] at h
                  by_cases h6 : c.toNat = 110
                  · rw [if_pos h6] at h
                    split at h <;> simp at h
                  · rw [if_neg h6] at h
                    split at h <;> simp at h
    · intro depth cs hlen h
      cases cs with
      | nil => simp [parseMembers] at h
      | cons q rest =>
        rw [parseMembers] at h
        simp only [List.length_cons] at hlen
        by_cases h1 : q.toNat = 34
        · rw [if_pos h1] at h
          split at h
          · rename_i err hkey
            simp at h
            subst h
            exact parseStringBody_fuel _ _ (Nat.le_refl _) hkey
          · rename_i key r1 hkey
            have hl1 := parseStringBody_length _ _ _ _ hkey
            have hsk1 := skipSpace_length r1
            split at h
            · simp at h
            · rename_i col r2 heq1
              rw [heq1] at hsk1
              simp only [List.length_cons] at hsk1
              have hsk2 := skipSpace_length r2
              by_cases h2 : col.toNat = 58
              · rw [if_pos h2] at h
                split at h
                · rename_i err hval
                  simp at h
                  subst h
                  exact ihV _ _ (by omega) hval
                · rename_i v r3 hval
                  have hl3 := lenV _ _ _ _ hval
                  have hsk3 := skipSpace_length r3
                  split at h
                  · simp at h
                  · rename_i sep r4 heq3
                    rw [heq3] at hsk3
                    simp only [List.length_cons] at hsk3
                    have hsk4 := skipSpace_length r4
                    by_cases h3 : sep.toNat = 125
                    · rw [if_pos h3] at h
                      simp at h
                    · rw [if_neg h3] at h
                      by_cases h4 : sep.toNat = 44
                      · rw [if_pos h4] at h
                        split at h
                        · simp at h
                        · rename_i err hrec
                          simp at h
                          subst h
                          exact ihM _ _ (by omega) hrec
                      · rw [if_neg h4] at h
                        simp at h
              · rw [if_neg h2] at h
                simp at h
        · rw [if_neg h1] at h
          simp at h
    · intro depth cs hlen h
      rw [parseElements] at h
      split at h
      · rename_i err hval
        simp at h
        subst h
        exact ihV _ _ (by omega) hval
      · rename_i v r1 hval
        have hl1 := lenV _ _ _ _ hval
        have hsk1 := skipSpace_length r1
        split at h
        · simp at h
        · rename_i sep r2 heq1
          rw [heq1] at hsk1
          simp only [List.length_cons] at hsk1
          have hsk2 := skipSpace_length r2
          by_cases h1 : sep.toNat = 93
          · rw [if_pos h1] at h
            simp at h
          · rw [if_neg h1] at h
            by_cases h2 : sep.toNat = 44
            · rw [if_pos h2] at h
              split at h
              · simp at h
              · rename_i err hrec
                simp at h
                subst h
                exact ihE _ _ (by omega) hrec
            · rw [if_neg h2] at h
              simp at h

/-- The recursion bound of `parseDocument` is enough for every text. -/
theorem parseDocument_fuel (cs : List Char) : parseDocument cs ≠ .error .fuel := by
  intro h
  unfold parseDocument at h
  have hsk := skipSpace_length cs
  split at h
  · rename_i err hval
    simp at h
    subst h
    exact (parse_fuel _).1 _ _ (by omega) hval
  · split at h <;> simp at h

/-- Storing a member never records the error `fuel`. -/
theorem setField_fuel (st : Token × Option JError) (kv : List Char × JValue)
    (h : st.2 ≠ some .fuel) : (setField st kv).2 ≠ some .fuel := by
  unfold setField
  split_ifs
  · split
    · exact h
    · exact h
    · cases hst : st.2 <;> simp_all [saveError]
  · split
    · exact h
    · split
      · exact h
      · cases hst : st.2 <;> simp_all [saveError]
    · cases hst : st.2 <;> simp_all [saveError]
  · exact h

/-- The model of `json.Unmarshal` never fails for lack of fuel: an error it returns is a
syntax error, a type error or the nesting limit. -/
theorem Unmarshal_fuel (text : String) : (Unmarshal text).2 ≠ some .fuel := by
  have hfold : ∀ (ms : List (List Char × JValue)) (st : Token × Option JError),
      st.2 ≠ some .fuel → (ms.foldl setField st).2 ≠ some .fuel := by
    intro ms
    induction ms with
    | nil => intro st h; exact h
    | cons kv ms ih => intro st h; exact ih _ (setField_fuel st kv h)
  unfold Unmarshal
  split
  · rename_i err herr
    intro h
    simp at h
    subst h
    exact parseDocument_fuel _ herr
  · exact hfold _ _ (by simp)
  · simp
  · simp

end Logopassapi
